import Mathlib

/-!
Verification development for the GenreBend Pro genre-inference pipeline.

The Python services under `src/services` are shallowly embedded here:
pure computations become Lean functions, Python floats become `ℚ`
(the constants involved are exact decimals), fallible dictionary/attribute
accesses become `Except PyErr` computations, and collaborator I/O
(HTTP providers, the library store, the audio classifier) is abstracted
into explicit function parameters.

String primitives (`lower`, `strip`, `split`, substring containment) are
implemented over `List Char` so that they compute inside the kernel; on
the ASCII data handled by this pipeline they agree with Python's.
-/

/-- Python exception kinds that the embedded code paths can raise. -/
inductive PyErr where
  | attributeError
  | typeError
deriving DecidableEq, Repr

/-- A JSON-like Python value, as returned by the metadata providers.
`dict` is an association list (first binding wins on lookup). -/
inductive PyVal where
  | pnone
  | str (s : String)
  | num (q : ℚ)
  | list (xs : List PyVal)
  | dict (fields : List (String × PyVal))

/-- A hashable Python value: the only values a Python `set` can hold,
hence the only values that can survive the tag-pooling `set.add` calls
in `MusicResearchService._combine_genres`. -/
inductive PyKey where
  | knone
  | kstr (s : String)
  | knum (q : ℚ)
deriving DecidableEq, Repr

/-- Python truthiness for the modelled values. -/
def truthy : PyVal → Bool
  | .pnone => false
  | .str s => s ≠ ""
  | .num q => q ≠ 0
  | .list xs => !xs.isEmpty
  | .dict fs => !fs.isEmpty

/-- Truthiness of an `Optional` Python value (`None` is falsy). -/
def truthyOpt : Option PyVal → Bool
  | none => false
  | some v => truthy v

/-- First binding of a key in a dict's association list. -/
def dictLookup (fs : List (String × PyVal)) (k : String) : Option PyVal :=
  (fs.find? (fun p => p.1 = k)).map (fun p => p.2)

/-- Python `v.get(k, default)`: defined on dicts, `AttributeError` otherwise. -/
def pyGetD (v : PyVal) (k : String) (default : PyVal) : Except PyErr PyVal :=
  match v with
  | .dict fs => .ok ((dictLookup fs k).getD default)
  | _ => .error .attributeError

/-- Python `v.get(k)` (default `None`). -/
def pyGet (v : PyVal) (k : String) : Except PyErr PyVal :=
  pyGetD v k .pnone

/-- Python iteration `for x in v`: lists yield elements, dicts yield keys,
strings yield one-character strings, everything else is a `TypeError`. -/
def pyIter : PyVal → Except PyErr (List PyVal)
  | .list xs => .ok xs
  | .dict fs => .ok (fs.map (fun p => .str p.1))
  | .str s => .ok (s.toList.map (fun c => .str c.toString))
  | _ => .error .typeError

/-- ASCII-faithful `str.lower()`. -/
def strLower (s : String) : String :=
  String.mk (s.toList.map Char.toLower)

/-- ASCII-faithful `str.strip()`. -/
def strTrim (s : String) : String :=
  String.mk (((s.toList.dropWhile Char.isWhitespace).reverse.dropWhile Char.isWhitespace).reverse)

/-- Python `v.lower()`: defined on strings only. -/
def pyLower : PyVal → Except PyErr String
  | .str s => .ok (strLower s)
  | _ => .error .attributeError

/-- Python `v.lower()` on a set element. -/
def pyLowerKey : PyKey → Except PyErr String
  | .kstr s => .ok (strLower s)
  | _ => .error .attributeError

/-- Modelled from the spec: the closed genre enumeration of
`src/models/track_models.py` (the models file is not under `src/`; the
spec lists the eighteen canonical labels including the `UNKNOWN` sentinel,
and the repository's tests pin `Genre.HOUSE.value = "House"` etc.). -/
inductive Genre where
  | HOUSE | DEEP_HOUSE | TECHNO | TRANCE | DUBSTEP | DRUM_AND_BASS
  | BREAKBEAT | AMBIENT | DOWNTEMPO | PROGRESSIVE | FUTURE_BASS | TRAP
  | HIP_HOP | INDUSTRIAL | CHILLOUT | ELECTRONIC | EXPERIMENTAL | UNKNOWN
deriving DecidableEq, Repr

/-- Modelled from the spec: the `.value` display string of each enum member
(the canonical labels named in the spec's genre enumeration). -/
def Genre.value : Genre → String
  | .HOUSE => "House"
  | .DEEP_HOUSE => "Deep House"
  | .TECHNO => "Techno"
  | .TRANCE => "Trance"
  | .DUBSTEP => "Dubstep"
  | .DRUM_AND_BASS => "Drum & Bass"
  | .BREAKBEAT => "Breakbeat"
  | .AMBIENT => "Ambient"
  | .DOWNTEMPO => "Downtempo"
  | .PROGRESSIVE => "Progressive"
  | .FUTURE_BASS => "Future Bass"
  | .TRAP => "Trap"
  | .HIP_HOP => "Hip Hop"
  | .INDUSTRIAL => "Industrial"
  | .CHILLOUT => "Chillout"
  | .ELECTRONIC => "Electronic"
  | .EXPERIMENTAL => "Experimental"
  | .UNKNOWN => "Unknown"

/-- The case-insensitive free-text-to-enum lookup table
`GenreDetectionService.genre_mapping` (its keys are already lowercase;
callers look up lowercased tag strings). -/
def genreMapping (s : String) : Option Genre :=
  match s with
  | "house" => some .HOUSE
  | "deep house" => some .DEEP_HOUSE
  | "progressive house" => some .PROGRESSIVE
  | "techno" => some .TECHNO
  | "trance" => some .TRANCE
  | "progressive trance" => some .TRANCE
  | "dubstep" => some .DUBSTEP
  | "drum and bass" => some .DRUM_AND_BASS
  | "dnb" => some .DRUM_AND_BASS
  | "breakbeat" => some .BREAKBEAT
  | "ambient" => some .AMBIENT
  | "downtempo" => some .DOWNTEMPO
  | "future bass" => some .FUTURE_BASS
  | "trap" => some .TRAP
  | "electronic" => some .ELECTRONIC
  | "experimental" => some .EXPERIMENTAL
  | _ => none

/-- Helper for substring scans: `listLeads pat l` holds when `pat` is an
initial segment of `l`. -/
def listLeads {α : Type} [DecidableEq α] : List α → List α → Bool
  | [], _ => true
  | _ :: _, [] => false
  | a :: as, b :: bs => a = b && listLeads as bs

/-- Python `pat in s` substring containment on strings. -/
def strContains (s pat : String) : Bool :=
  (List.range (s.toList.length + 1)).any (fun i => listLeads pat.toList (s.toList.drop i))

/-- Worker for `pyWords`: splits a character list on whitespace runs,
accumulating the current (reversed) word. -/
def wordsAux : List Char → List Char → List String
  | [], cur => if cur.isEmpty then [] else [String.mk cur.reverse]
  | c :: cs, cur =>
    if c.isWhitespace then
      if cur.isEmpty then wordsAux cs [] else String.mk cur.reverse :: wordsAux cs []
    else wordsAux cs (c :: cur)

/-- Python `str.split()` with no argument: split on whitespace runs,
discarding empty tokens (used by `_calculate_similarity`). -/
def pyWords (s : String) : List String :=
  wordsAux s.toList []

/-- The word set `set(str.split())` used by `_calculate_similarity`. -/
def wordSet (s : String) : Finset String :=
  (pyWords s).toFinset

/-- Shallow embedding of `MusicResearchService._calculate_similarity`:
Jaccard similarity over whitespace-tokenised word sets, with the source's
two emptiness guards and its trailing `if union else 0.0` guard. -/
def calculateSimilarity (str1 str2 : String) : ℚ :=
  if str1 = "" ∨ str2 = "" then 0
  else if wordSet str1 = ∅ ∨ wordSet str2 = ∅ then 0
  else if (wordSet str1 ∪ wordSet str2) ≠ ∅ then
    ((wordSet str1 ∩ wordSet str2).card : ℚ) / ((wordSet str1 ∪ wordSet str2).card : ℚ)
  else 0

/-- Auxiliary fact: the word set of the empty string is empty. -/
theorem wordSet_empty_string : wordSet "" = ∅ := by decide

/-- C7 counterexample: the claim asserts `similarity(a,a) = 1.0` for every
non-empty `a`, but a whitespace-only (hence non-empty) string has an empty
word set: the source's `if not words1 or not words2` guard returns `0.0`. -/
theorem C7_similarity_counterexample :
    (" " : String) ≠ "" ∧ calculateSimilarity " " " " = 0 ∧ (0 : ℚ) ≠ 1 := by
  refine ⟨by decide, ?_, by norm_num⟩
  unfold calculateSimilarity
  rw [if_neg (by decide), if_pos (by decide)]

/-- C7 (amended): `_calculate_similarity` is symmetric, equals `1` on any
string containing at least one word (rather than any non-empty string),
equals `0` when the word sets are disjoint, lies strictly between `0` and
`1` on partial word overlap (nonempty intersection, unequal word sets),
always lies in `[0,1]`, and takes the value `1/3` on the documented
partial-overlap example. -/
theorem C7_similarity_amended (a b : String) :
    calculateSimilarity a b = calculateSimilarity b a ∧
    (wordSet a ≠ ∅ → calculateSimilarity a a = 1) ∧
    (wordSet a ∩ wordSet b = ∅ → calculateSimilarity a b = 0) ∧
    (wordSet a ∩ wordSet b ≠ ∅ → wordSet a ≠ wordSet b →
      0 < calculateSimilarity a b ∧ calculateSimilarity a b < 1) ∧
    0 ≤ calculateSimilarity a b ∧ calculateSimilarity a b ≤ 1 ∧
    calculateSimilarity "hello world" "hello there" = 1/3 := by
  have hconc : calculateSimilarity "hello world" "hello there" = 1/3 := by
    unfold calculateSimilarity
    rw [if_neg (by decide), if_neg (by decide), if_pos (by decide)]
    have h1 : (wordSet "hello world" ∩ wordSet "hello there").card = 1 := by decide
    have h2 : (wordSet "hello world" ∪ wordSet "hello there").card = 3 := by decide
    rw [h1, h2]
    norm_num
  refine ⟨?_, ?_, ?_, ?_, ?_, ?_, hconc⟩
  · unfold calculateSimilarity
    by_cases h1 : a = "" <;> by_cases h2 : b = "" <;>
      simp [h1, h2, or_comm, Finset.inter_comm, Finset.union_comm]
  · intro h
    have ha : a ≠ "" := by
      intro e
      exact h (by rw [e, wordSet_empty_string])
    unfold calculateSimilarity
    rw [if_neg (by simp [ha]), if_neg (by simp [h]),
      if_pos (by simp [Finset.union_self, h])]
    rw [Finset.inter_self, Finset.union_self]
    have hc : (wordSet a).card ≠ 0 := by
      rw [Finset.card_ne_zero]
      exact Finset.nonempty_iff_ne_empty.mpr h
    rw [div_self (by exact_mod_cast hc)]
  · intro h
    unfold calculateSimilarity
    split_ifs with h1 h2 h3
    · rfl
    · rfl
    · rw [h]; simp
    · rfl
  · intro hne hab
    have hint : (wordSet a ∩ wordSet b).Nonempty := Finset.nonempty_iff_ne_empty.mpr hne
    have haN : (wordSet a).Nonempty := hint.mono Finset.inter_subset_left
    have hbN : (wordSet b).Nonempty := hint.mono Finset.inter_subset_right
    have haE : wordSet a ≠ ∅ := Finset.nonempty_iff_ne_empty.mp haN
    have hbE : wordSet b ≠ ∅ := Finset.nonempty_iff_ne_empty.mp hbN
    have ha : a ≠ "" := by
      intro e
      exact haE (by rw [e, wordSet_empty_string])
    have hb : b ≠ "" := by
      intro e
      exact hbE (by rw [e, wordSet_empty_string])
    have huE : wordSet a ∪ wordSet b ≠ ∅ := by
      intro e
      exact haE (Finset.union_eq_empty.mp e).1
    have hneq : wordSet a ∩ wordSet b ≠ wordSet a ∪ wordSet b := by
      intro e
      apply hab
      have h1 : wordSet a ⊆ wordSet b := by
        intro x hx
        have hx2 : x ∈ wordSet a ∩ wordSet b := by
          rw [e]
          exact Finset.mem_union_left _ hx
        exact (Finset.mem_inter.mp hx2).2
      have h2 : wordSet b ⊆ wordSet a := by
        intro x hx
        have hx2 : x ∈ wordSet a ∩ wordSet b := by
          rw [e]
          exact Finset.mem_union_right _ hx
        exact (Finset.mem_inter.mp hx2).1
      exact Finset.Subset.antisymm h1 h2
    have hcard : (wordSet a ∩ wordSet b).card < (wordSet a ∪ wordSet b).card :=
      Finset.card_lt_card (Finset.ssubset_iff_subset_ne.mpr ⟨Finset.inter_subset_union, hneq⟩)
    have hipos : 0 < (wordSet a ∩ wordSet b).card := Finset.card_pos.mpr hint
    have hupos : (0 : ℚ) < ((wordSet a ∪ wordSet b).card : ℚ) := by
      exact_mod_cast lt_trans hipos hcard
    unfold calculateSimilarity
    rw [if_neg (by simp [ha, hb]), if_neg (by simp [haE, hbE]), if_pos huE]
    constructor
    · apply div_pos _ hupos
      exact_mod_cast hipos
    · rw [div_lt_one hupos]
      exact_mod_cast hcard
  · unfold calculateSimilarity
    split_ifs
    · exact le_refl 0
    · exact le_refl 0
    · positivity
    · exact le_refl 0
  · unfold calculateSimilarity
    split_ifs with h1 h2 h3
    · norm_num
    · norm_num
    · apply div_le_one_of_le₀
      · exact_mod_cast Finset.card_le_card Finset.inter_subset_union
      · positivity
    · norm_num

/-- C7 witness: the amended similarity theorem applied at the documented
example strings, with its embedded hypotheses discharged concretely. -/
theorem C7_similarity_witness :
    calculateSimilarity "hello world" "hello there" =
      calculateSimilarity "hello there" "hello world" ∧
    calculateSimilarity "hello world" "hello world" = 1 ∧
    calculateSimilarity "hello" "world" = 0 ∧
    (0 < calculateSimilarity "hello world" "hello there" ∧
      calculateSimilarity "hello world" "hello there" < 1) := by
  refine ⟨(C7_similarity_amended "hello world" "hello there").1,
    (C7_similarity_amended "hello world" "hello there").2.1 (by decide),
    (C7_similarity_amended "hello" "world").2.2.1 (by decide),
    (C7_similarity_amended "hello world" "hello there").2.2.2.1 (by decide) (by decide)⟩

/-- The remix keyword list of `MusicResearchService.__init__`
(`'flip'` appears twice in the source; the duplicate is kept). -/
def remixKeywords : List String :=
  ["remix", "edit", "version", "mix", "rework", "reinterpretation",
   "bootleg", "mashup", "flip", "flip", "refix", "vip", "dub",
   "instrumental", "acapella", "extended", "radio edit"]

/-- One pass of `_detect_remix`'s keyword loop over an already-lowercased
string. -/
def containsRemixKeyword (s : String) : Bool :=
  remixKeywords.any (fun kw => strContains s kw)

/-- The Last.fm block of `_detect_remix` (lines 182-188): reads
`lastfm_data.get('name', '').lower()` and
`lastfm_data.get('artist', {}).get('name', '').lower()` and scans both for
keywords.  A payload whose `'artist'` value is not a dict makes the inner
`.get` raise `AttributeError`. -/
def lastfmRemixHit (lastfmData : Option PyVal) : Except PyErr Bool :=
  match lastfmData with
  | some d =>
    if truthy d then do
      let lname ← pyLower (← pyGetD d "name" (.str ""))
      let laname ← pyLower (← pyGetD (← pyGetD d "artist" (.dict [])) "name" (.str ""))
      pure (remixKeywords.any (fun kw => strContains lname kw || strContains laname kw))
    else pure false
  | none => pure false

/-- The MusicBrainz block of `_detect_remix` (lines 191-197). -/
def mbRemixHit (mbData : Option PyVal) : Except PyErr Bool :=
  match mbData with
  | some d =>
    if truthy d then do
      let t ← pyLower (← pyGetD d "title" (.str ""))
      let a ← pyLower (← pyGetD d "artist-credit-phrase" (.str ""))
      pure (remixKeywords.any (fun kw => strContains t kw || strContains a kw))
    else pure false
  | none => pure false

/-- Shallow embedding of `MusicResearchService._detect_remix`: scan the
track title, the track artist, then each provider payload's textual
fields for remix keywords; any hit returns `true`. -/
def detectRemix (title artist : String) (lastfmData mbData : Option PyVal) :
    Except PyErr Bool :=
  if containsRemixKeyword (strLower title) then pure true
  else if containsRemixKeyword (strLower artist) then pure true
  else do
    let b1 ← lastfmRemixHit lastfmData
    if b1 then pure true
    else do
      let b2 ← mbRemixHit mbData
      if b2 then pure true else pure false

/-- Python `set.add`: hashable values are appended to the pool (the pool is
deduplicated later), unhashable values raise `TypeError`. -/
def setAdd (pool : List PyKey) (v : PyVal) : Except PyErr (List PyKey) :=
  match v with
  | .pnone => .ok (pool ++ [.knone])
  | .str s => .ok (pool ++ [.kstr s])
  | .num q => .ok (pool ++ [.knum q])
  | .list _ => .error .typeError
  | .dict _ => .error .typeError

/-- The repeated tag-collection pattern of `_combine_genres`: given the
value of a `'tag'` field, add `tag['name']` for each dict-shaped entry
(a list of tags, one tag object, or anything else which is skipped by the
`isinstance` guards). -/
def collectTags (tagVal : PyVal) (pool : List PyKey) : Except PyErr (List PyKey) :=
  match tagVal with
  | .list tags =>
    tags.foldlM (fun acc t =>
      match t with
      | .dict fs =>
        match dictLookup fs "name" with
        | some v => setAdd acc v
        | none => .ok acc
      | _ => .ok acc) pool
  | .dict fs =>
    match dictLookup fs "name" with
    | some v => setAdd pool v
    | none => .ok pool
  | _ => .ok pool

/-- The repeated `.get('tag', [])`-then-collect step of `_combine_genres`,
applied to a tag container (a `toptags`/`tags` object). -/
def tagChain (container : PyVal) (pool : List PyKey) : Except PyErr (List PyKey) := do
  let tagv ← pyGetD container "tag" (.list [])
  collectTags tagv pool

/-- The artist-info block of `_combine_genres` (lines 218-226): guarded by
`if artist_info:`, then `artist_info.get('tags', {}).get('tag', [])`. -/
def artistInfoAdds (artistInfo : PyVal) (pool : List PyKey) : Except PyErr (List PyKey) :=
  if truthy artistInfo then do
    let tags ← pyGetD artistInfo "tags" (.dict [])
    tagChain tags pool
  else pure pool

/-- The similar-tracks block of `_combine_genres` (lines 229-237):
iterate the `'similar_tracks'` value and collect each entry's top tags. -/
def similarAdds (sim : PyVal) (pool : List PyKey) : Except PyErr (List PyKey) := do
  let simItems ← pyIter sim
  simItems.foldlM (fun acc st => do
    let toptags ← pyGetD st "toptags" (.dict [])
    tagChain toptags acc) pool

/-- The Last.fm section of `_combine_genres` (lines 207-237): track
top-tags, then artist-info tags, then tags of each similar track. -/
def lastfmGenreAdds (d : PyVal) (pool : List PyKey) : Except PyErr (List PyKey) := do
  let toptags ← pyGetD d "toptags" (.dict [])
  let pool ← tagChain toptags pool
  let artistInfo ← pyGetD d "artist_info" (.dict [])
  let pool ← artistInfoAdds artistInfo pool
  let sim ← pyGetD d "similar_tracks" (.list [])
  similarAdds sim pool

/-- The MusicBrainz section of `_combine_genres` (lines 240-247): the
`'tag-list'` value feeds the same `isinstance`-guarded pattern directly. -/
def mbGenreAdds (d : PyVal) (pool : List PyKey) : Except PyErr (List PyKey) := do
  let tl ← pyGetD d "tag-list" (.list [])
  collectTags tl pool

/-- Shallow embedding of `MusicResearchService._combine_genres`: the pool
of distinct tag values added to the Python `set`.  The returned list holds
the distinct elements; the order in which Python's `set` enumerates them
is implementation-defined and is therefore modelled separately by an
explicit enumeration parameter at the call site.
`lastfmSection` is the `if lastfm_data:` guard around the Last.fm part. -/
def lastfmSection (lastfmData : Option PyVal) : Except PyErr (List PyKey) :=
  match lastfmData with
  | some d => if truthy d then lastfmGenreAdds d [] else pure []
  | none => pure []

/-- The `if musicbrainz_data:` guard around the MusicBrainz section. -/
def mbSection (mbData : Option PyVal) (pool : List PyKey) : Except PyErr (List PyKey) :=
  match mbData with
  | some d => if truthy d then mbGenreAdds d pool else pure pool
  | none => pure pool

/-- Shallow embedding of `MusicResearchService._combine_genres` proper. -/
def combineGenres (lastfmData mbData : Option PyVal) : Except PyErr (List PyKey) := do
  let pool ← lastfmSection lastfmData
  let pool ← mbSection mbData pool
  return pool.dedup

/-- Shallow embedding of `MusicResearchService._calculate_confidence`:
the base ladder on the number of providers that answered, the tag bonus,
and the three Last.fm richness bonuses, capped at `1.0`. -/
def calculateConfidence (lastfmData mbData : Option PyVal)
    (combinedGenres : List PyKey) : Except PyErr ℚ := do
  let sourcesFound : Nat :=
    (if truthyOpt lastfmData then 1 else 0) + (if truthyOpt mbData then 1 else 0)
  let conf : ℚ := if sourcesFound = 2 then 8/10 else if sourcesFound = 1 then 6/10 else 0
  let conf : ℚ := if combinedGenres.isEmpty then conf else conf + 1/10
  match lastfmData with
  | some d =>
    if truthy d then do
      let ai ← pyGet d "artist_info"
      let conf : ℚ := if truthy ai then conf + 1/20 else conf
      let st ← pyGet d "similar_tracks"
      let conf : ℚ := if truthy st then conf + 1/20 else conf
      let pc ← pyGet d "playcount"
      let conf : ℚ := if truthy pc then conf + 1/20 else conf
      return min conf 1
    else return min conf 1
  | none => return min conf 1

/-- The evidence bundle produced by `research_track`
(`MusicResearchResult` in `src/models/track_models.py`; `spotify_data` is
never populated by this service and is omitted). -/
structure MusicResearchResult where
  trackId : String
  lastfmData : Option PyVal := none
  musicbrainzData : Option PyVal := none
  combinedGenres : List PyKey := []
  isRemix : Bool := false
  confidence : ℚ := 0

/-- Shallow embedding of `MusicResearchService.research_track` (lines
28-51).  `lastfmResp`/`mbResp` are the values returned by the collaborator
search helpers `_search_lastfm`/`_search_musicbrainz` (each of which
swallows its own errors and may return `None`); `enum` models the
implementation-defined order in which Python's `set` of pooled tags is
turned into a list.  The body itself runs under no `try`, so any
exception in `_detect_remix`, `_combine_genres` or
`_calculate_confidence` propagates to the caller.
`storeIfTruthy` is the `if lastfm_data: result.lastfm_data = lastfm_data`
truthiness guard on what gets stored in the result. -/
def storeIfTruthy (resp : Option PyVal) : Option PyVal :=
  match resp with
  | some v => if truthy v then some v else none
  | none => none

/-- Shallow embedding of `MusicResearchService.research_track` proper. -/
def researchTrack (trackId title artist : String)
    (lastfmResp mbResp : Option PyVal) (enum : List PyKey → List PyKey) :
    Except PyErr MusicResearchResult := do
  let storedLastfm := storeIfTruthy lastfmResp
  let storedMb := storeIfTruthy mbResp
  let isRemix ← detectRemix title artist lastfmResp mbResp
  let pooled ← combineGenres lastfmResp mbResp
  let conf ← calculateConfidence storedLastfm storedMb (enum pooled)
  return { trackId := trackId, lastfmData := storedLastfm,
           musicbrainzData := storedMb, combinedGenres := enum pooled,
           isRemix := isRemix, confidence := conf }

deriving instance DecidableEq for Except

/-- One step of the `genre_counts` accumulation in `_predict_from_metadata`:
bump the count of `s` in an insertion-ordered association list. -/
def bumpCount : List (String × Nat) → String → List (String × Nat)
  | [], s => [(s, 1)]
  | (t, n) :: rest, s =>
    if t = s then (t, n + 1) :: rest else (t, n) :: bumpCount rest s

/-- The `genre_counts` dict of `_predict_from_metadata` built over an
already-lowercased tag list (Python dicts preserve insertion order). -/
def countsOf (ls : List String) : List (String × Nat) :=
  ls.foldl bumpCount []

/-- Worker for `maxBySecond`: Python's `max(..., key=lambda x: x[1])`
keeps the first maximum, replacing only on a strictly greater count. -/
def maxAux (best : String × Nat) : List (String × Nat) → String × Nat
  | [] => best
  | y :: rest => maxAux (if y.2 > best.2 then y else best) rest

/-- Python's `max(genre_counts.items(), key=lambda x: x[1])`. -/
def maxBySecond : List (String × Nat) → Option (String × Nat)
  | [] => none
  | x :: rest => some (maxAux x rest)

/-- The majority vote of `_predict_from_metadata` before the remix
adjustment (lines 196-216): lowercase every pooled tag (`.lower()` raises
on a non-string tag), count occurrences, map the most common tag through
`genre_mapping` with an `UNKNOWN` fallback, and divide its count by the
total tag count. -/
def metadataVote (combinedGenres : List PyKey) : Except PyErr (Genre × ℚ) :=
  if combinedGenres.isEmpty then pure (Genre.UNKNOWN, 0)
  else do
    let lowered ← combinedGenres.mapM pyLowerKey
    match maxBySecond (countsOf lowered) with
    | some (name, cnt) =>
      pure ((genreMapping name).getD Genre.UNKNOWN,
            (cnt : ℚ) / (combinedGenres.length : ℚ))
    | none => pure (Genre.UNKNOWN, 0)

/-- Shallow embedding of `GenreDetectionService._predict_from_metadata`:
the vote of `metadataVote` followed by the remix adjustment of lines
218-222 (`confidence *= 0.8` when the research result is a remix and a
genre was resolved).  The source's early return on an empty tag list is
absorbed: the adjustment does not fire on `UNKNOWN`. -/
def predictFromMetadata (combinedGenres : List PyKey) (isRemix : Bool) :
    Except PyErr (Genre × ℚ) := do
  let (g, c) ← metadataVote combinedGenres
  return (g, if isRemix && decide (g ≠ Genre.UNKNOWN) then c * (4/5) else c)

/-- `GenreDetectionService._generate_playlist_suggestions`. -/
def generatePlaylistSuggestions : Genre → List String
  | .HOUSE => ["House Music", "Deep House", "House Classics"]
  | .DEEP_HOUSE => ["Deep House", "House Music", "Chill House"]
  | .TECHNO => ["Techno", "Dark Techno", "Industrial Techno"]
  | .TRANCE => ["Trance", "Progressive Trance", "Uplifting Trance"]
  | .DUBSTEP => ["Dubstep", "Bass Music", "Electronic"]
  | .DRUM_AND_BASS => ["Drum & Bass", "DnB", "Liquid DnB"]
  | .BREAKBEAT => ["Breakbeat", "Big Beat", "Breaks"]
  | .AMBIENT => ["Ambient", "Chillout", "Relaxing"]
  | .DOWNTEMPO => ["Downtempo", "Chill", "Lounge"]
  | .PROGRESSIVE => ["Progressive", "Progressive House", "Progressive Trance"]
  | .FUTURE_BASS => ["Future Bass", "Bass Music", "Electronic"]
  | .TRAP => ["Trap", "Hip Hop", "Bass Music"]
  | .ELECTRONIC => ["Electronic", "EDM", "Electronic Music"]
  | .EXPERIMENTAL => ["Experimental", "Avant-garde", "Abstract"]
  | _ => ["Electronic", "Music"]

/-- The per-track analysis produced by `analyze_track` (`GenreAnalysis` in
the models file; the `audio_features`/`metadata_features` debug maps are
observability payloads not consumed anywhere and are omitted). -/
structure GenreAnalysis where
  trackId : String
  predictedGenre : Genre
  confidence : ℚ
  isRemix : Bool
  analysisMethod : String
  playlistSuggestions : List String
deriving DecidableEq, Repr

/-- Shallow embedding of `GenreDetectionService.analyze_track` (lines
46-84).  `audioResult` abstracts the audio-classifier collaborator:
`some (g, c)` models "the track's file exists, a trained model is loaded,
feature extraction returned a non-empty map, and `_predict_from_audio`
returned `(g, c)`"; `none` models every case in which the audio branch
does not run (no file path, file missing, untrained model, or empty
features).  The fallback fires exactly when the audio prediction is
`UNKNOWN` or its confidence is below `0.7`. -/
def analyzeTrack (trackId : String) (audioResult : Option (Genre × ℚ))
    (rr : MusicResearchResult) : Except PyErr GenreAnalysis := do
  let (g0, c0, method0) :=
    match audioResult with
    | some (g, c) => (g, c, "audio_analysis")
    | none => (Genre.UNKNOWN, (0 : ℚ), "metadata_only")
  if g0 = Genre.UNKNOWN ∨ c0 < 7/10 then do
    let (g, c) ← predictFromMetadata rr.combinedGenres rr.isRemix
    return { trackId := trackId, predictedGenre := g, confidence := c,
             isRemix := rr.isRemix, analysisMethod := "metadata_analysis",
             playlistSuggestions := generatePlaylistSuggestions g }
  else
    return { trackId := trackId, predictedGenre := g0, confidence := c0,
             isRemix := rr.isRemix, analysisMethod := method0,
             playlistSuggestions := generatePlaylistSuggestions g0 }

/-- A playlist as fetched from the library store (`PlaylistInfo` in the
models file: identity, display name, free-text genre tag). -/
structure PlaylistInfo where
  id : String
  name : String
  genre : String
deriving DecidableEq, Repr

/-- The synonym table of `PlaylistMatchingService._normalize_genre_name`. -/
def genreVariations : List (String × String) :=
  [("drum and bass", "drum & bass"), ("dnb", "drum & bass"),
   ("d&b", "drum & bass"), ("progressive house", "progressive"),
   ("progressive trance", "progressive"), ("deep house", "house"),
   ("future bass", "bass"), ("trap", "hip hop")]

/-- Shallow embedding of `_normalize_genre_name`: empty input maps to the
empty string, otherwise lowercase, strip, and collapse known synonyms. -/
def normalizeGenreName (s : String) : String :=
  if s = "" then ""
  else
    let n := strTrim (strLower s)
    (((genreVariations.find? (fun p => p.1 = n)).map (fun p => p.2)).getD n)

/-- The static adjacency table of `_build_genre_similarity_matrix`
(genres absent from the dict map to the empty list, matching
`dict.get(genre, [])`). -/
def genreSimilarityMatrix : Genre → List Genre
  | .HOUSE => [.DEEP_HOUSE, .PROGRESSIVE, .TECHNO]
  | .DEEP_HOUSE => [.HOUSE, .AMBIENT, .DOWNTEMPO]
  | .TECHNO => [.HOUSE, .INDUSTRIAL, .EXPERIMENTAL]
  | .TRANCE => [.PROGRESSIVE, .AMBIENT, .ELECTRONIC]
  | .DUBSTEP => [.DRUM_AND_BASS, .TRAP, .FUTURE_BASS]
  | .DRUM_AND_BASS => [.DUBSTEP, .BREAKBEAT, .TECHNO]
  | .BREAKBEAT => [.DRUM_AND_BASS, .TECHNO, .EXPERIMENTAL]
  | .AMBIENT => [.DOWNTEMPO, .DEEP_HOUSE, .EXPERIMENTAL]
  | .DOWNTEMPO => [.AMBIENT, .DEEP_HOUSE, .CHILLOUT]
  | .PROGRESSIVE => [.TRANCE, .HOUSE, .ELECTRONIC]
  | .FUTURE_BASS => [.DUBSTEP, .TRAP, .ELECTRONIC]
  | .TRAP => [.HIP_HOP, .DUBSTEP, .FUTURE_BASS]
  | .ELECTRONIC => [.TECHNO, .TRANCE, .PROGRESSIVE]
  | .EXPERIMENTAL => [.AMBIENT, .TECHNO, .BREAKBEAT]
  | _ => []

/-- `PlaylistMatchingService._find_direct_genre_matches`: per playlist,
append on a normalized-genre match and again on a name-substring match. -/
def findDirectGenreMatches (g : Genre) (playlists : List PlaylistInfo) : List String :=
  (playlists.map (fun p =>
    (if normalizeGenreName p.genre = normalizeGenreName g.value then [p.id] else []) ++
    (if strContains (strLower p.name) (normalizeGenreName g.value) then [p.id] else []))).flatten

/-- `PlaylistMatchingService._find_similar_genre_matches`: the same two
checks for every genre adjacent to the prediction. -/
def findSimilarGenreMatches (g : Genre) (playlists : List PlaylistInfo) : List String :=
  ((genreSimilarityMatrix g).map (fun sg =>
    (playlists.map (fun p =>
      (if normalizeGenreName p.genre = normalizeGenreName sg.value then [p.id] else []) ++
      (if strContains (strLower p.name) (normalizeGenreName sg.value) then [p.id] else []))).flatten)).flatten

/-- The remix-playlist keyword list of `_find_remix_specific_matches`. -/
def playlistRemixKeywords : List String := ["remix", "edit", "version", "mix", "rework"]

/-- `PlaylistMatchingService._find_remix_specific_matches`: a playlist
whose name holds a remix keyword is matched (once, via the loop's
`break`) when its normalized genre equals — or its name contains — the
predicted genre. -/
def findRemixSpecificMatches (g : Genre) (playlists : List PlaylistInfo) : List String :=
  (playlists.map (fun p =>
    if playlistRemixKeywords.any (fun kw => strContains (strLower p.name) kw) then
      if normalizeGenreName p.genre = normalizeGenreName g.value ||
         strContains (strLower p.name) (normalizeGenreName g.value) then [p.id] else []
    else [])).flatten

/-- Shallow embedding of
`PlaylistMatchingService.match_track_to_playlists`: the three passes
concatenated and deduplicated.  The Python source returns
`list(set(matched_playlists))`, whose enumeration order is
implementation-defined; membership in the returned collection is
order-independent, and the claims below are stated membership-wise. -/
def matchTrackToPlaylists (analysis : GenreAnalysis)
    (playlists : List PlaylistInfo) : List String :=
  (findDirectGenreMatches analysis.predictedGenre playlists ++
   findSimilarGenreMatches analysis.predictedGenre playlists ++
   (if analysis.isRemix then findRemixSpecificMatches analysis.predictedGenre playlists
    else [])).dedup

/-- Modelled from the spec: the track record fetched from the library
store (`TrackInfo` in the missing models file).  Only the fields the
modelled code paths read are kept; `album`, `duration`, `bpm`, `year` and
the file path are unused here (the file path's role is absorbed into
`analyzeTrack`'s `audioResult` parameter). -/
structure TrackInfo where
  id : String
  title : String
  artist : String
  currentGenre : Option String := none
  confidenceScore : Option ℚ := none
deriving DecidableEq, Repr

/-- An observable interaction of `_process_single_track` with its
collaborators: a metadata-provider research pass or a library-store call. -/
inductive Effect where
  | researchCall
  | updateGenreCall (trackId genre : String)
  | getPlaylistTracksCall (playlistId : String)
  | addTrackCall (playlistId trackId : String)
deriving DecidableEq, Repr

/-- The per-track result dict built by `_process_single_track`. -/
structure SingleTrackResult where
  trackId : String
  success : Bool
  updated : Bool
  playlistAdditions : Nat
  skipped : Bool
  errorMsg : Option String
  matchedPlaylists : List String := []
deriving DecidableEq, Repr

/-- Rendering of a caught Python exception into the result's error field. -/
def pyErrMsg : PyErr → String
  | .attributeError => "AttributeError"
  | .typeError => "TypeError"

/-- Shallow embedding of `MusicOrganizerService._process_single_track`
(lines 157-237), instrumented with an explicit log of collaborator calls.
Collaborator behaviour is passed in: `lastfmResp`/`mbResp`/`enum` feed the
research model, `audioResult` feeds the analysis model, `updateOk` is the
library store's answer to a genre write, `playlistTracks` lists a
playlist's current members, and `addOk` is the store's answer to an add.
The surrounding `try` of the source converts any propagated exception
into an error result. -/
def processSingleTrack (track : TrackInfo) (playlists : List PlaylistInfo)
    (dryRun : Bool) (lastfmResp mbResp : Option PyVal)
    (enum : List PyKey → List PyKey) (audioResult : Option (Genre × ℚ))
    (confidenceThreshold : ℚ) (updateOk : Bool)
    (playlistTracks : String → List String) (addOk : String → Bool) :
    SingleTrackResult × List Effect :=
  let base : SingleTrackResult :=
    { trackId := track.id, success := false, updated := false,
      playlistAdditions := 0, skipped := false, errorMsg := none }
  let genreTruthy := match track.currentGenre with
    | some s => s ≠ ""
    | none => false
  let confTruthy := match track.confidenceScore with
    | some c => c ≠ 0
    | none => false
  let confHigh := match track.confidenceScore with
    | some c => c > 8/10
    | none => false
  if genreTruthy && confTruthy && confHigh then
    ({ base with skipped := true, success := true }, [])
  else
    match researchTrack track.id track.title track.artist lastfmResp mbResp enum with
    | .error e => ({ base with errorMsg := some (pyErrMsg e) }, [.researchCall])
    | .ok rr =>
      match analyzeTrack track.id audioResult rr with
      | .error e => ({ base with errorMsg := some (pyErrMsg e) }, [.researchCall])
      | .ok analysis =>
        if analysis.confidence < confidenceThreshold then
          ({ base with skipped := true, success := true }, [.researchCall])
        else
          let needUpdate := !dryRun &&
            (match track.currentGenre with
             | some g => analysis.predictedGenre.value ≠ g
             | none => true)
          let effects0 : List Effect :=
            if needUpdate then
              [.researchCall, .updateGenreCall track.id analysis.predictedGenre.value]
            else [.researchCall]
          if needUpdate && !updateOk then
            ({ base with errorMsg := some "Failed to update genre" }, effects0)
          else
            let matched := matchTrackToPlaylists analysis playlists
            let step : Nat × List Effect → String → Nat × List Effect :=
              fun acc pid =>
                let acc1 := (acc.1, acc.2 ++ [Effect.getPlaylistTracksCall pid])
                if track.id ∈ playlistTracks pid then acc1
                else
                  ((if addOk pid then acc1.1 + 1 else acc1.1),
                   acc1.2 ++ [Effect.addTrackCall pid track.id])
            let run : Nat × List Effect :=
              if !dryRun && !matched.isEmpty then matched.foldl step (0, effects0)
              else (0, effects0)
            let res := { base with
              success := true
              updated := needUpdate
              playlistAdditions := run.1
              matchedPlaylists := matched }
            (res, run.2)

/-- The batch start offsets of `_process_tracks_batch`'s
`range(0, len(tracks), batch_size)` loop (for a positive step). -/
def batchStarts (n batchSize : Nat) : List Nat :=
  (List.range ((n + batchSize - 1) / batchSize)).map (fun i => i * batchSize)

/-- The batch partition and inter-batch sleep count of
`MusicOrganizerService._process_tracks_batch` (lines 98-112): the slices
`tracks[i:i+batch_size]`, and one `time.sleep` per iteration with
`i + batch_size < len(tracks)`. -/
def processTracksBatchSchedule {α : Type} (tracks : List α) (batchSize : Nat) :
    List (List α) × Nat :=
  let idx := batchStarts tracks.length batchSize
  (idx.map (fun i => (tracks.drop i).take batchSize),
   (idx.filter (fun i => i + batchSize < tracks.length)).length)

/-- C9 (confirmed): a 120-track library with batch size 50 is cut into
exactly the three fetch-order slices of sizes 50, 50 and 20, whose
concatenation is the original track list, and the inter-batch delay
fires exactly twice (the `i + batch_size < len(tracks)` guard is false
only on the last batch). -/
theorem C9_batch_schedule {α : Type} (tracks : List α)
    (h : tracks.length = 120) :
    (processTracksBatchSchedule tracks 50).1.map List.length = [50, 50, 20] ∧
    (processTracksBatchSchedule tracks 50).1.flatten = tracks ∧
    (processTracksBatchSchedule tracks 50).2 = 2 := by
  have hidx : batchStarts 120 50 = [0, 50, 100] := by decide
  unfold processTracksBatchSchedule
  rw [h, hidx]
  refine ⟨?_, ?_, ?_⟩
  · simp [List.length_take, List.length_drop, h]
  · have h100 : (tracks.drop 100).take 50 = tracks.drop 100 :=
      List.take_of_length_le (by simp [h])
    have h50 : (tracks.drop 50).drop 50 = tracks.drop 100 := by
      rw [List.drop_drop]
    simp only [List.map_cons, List.map_nil, List.flatten, List.drop_zero,
      List.append_nil, h100]
    rw [← h50, List.take_append_drop, List.take_append_drop]
  · show (List.filter (fun i => decide (i + 50 < 120)) [0, 50, 100]).length = 2
    decide

/-- C9 witness: the schedule theorem applied to the concrete 120-element
list `List.range 120`. -/
theorem C9_batch_schedule_witness :
    (processTracksBatchSchedule (List.range 120) 50).1.map List.length = [50, 50, 20] ∧
    (processTracksBatchSchedule (List.range 120) 50).1.flatten = List.range 120 ∧
    (processTracksBatchSchedule (List.range 120) 50).2 = 2 :=
  C9_batch_schedule (List.range 120) (by simp)

/-- Shape guard for the stored Last.fm payload: when truthy it must be a
dict (otherwise `_calculate_confidence`'s `.get` calls raise). -/
def dictWhenTruthy : Option PyVal → Bool
  | none => true
  | some v => !truthy v || (match v with | .dict _ => true | _ => false)

/-- Truthiness of a field of the stored Last.fm payload, as tested by the
bonus checks of `_calculate_confidence`. -/
def lastfmFieldTruthy (ld : Option PyVal) (k : String) : Bool :=
  match ld with
  | some (.dict fs) => truthy (.dict fs) && truthy ((dictLookup fs k).getD .pnone)
  | _ => false

/-- The fixed confidence ladder as the claim states it: base on providers
answered, tag bonus, three Last.fm richness bonuses. -/
def confidenceLadder (ld md : Option PyVal) (cg : List PyKey) : ℚ :=
  (if truthyOpt ld && truthyOpt md then (8 : ℚ)/10
   else if truthyOpt ld || truthyOpt md then 6/10 else 0) +
  (if cg.isEmpty then 0 else 1/10) +
  (if lastfmFieldTruthy ld "artist_info" then 1/20 else 0) +
  (if lastfmFieldTruthy ld "similar_tracks" then 1/20 else 0) +
  (if lastfmFieldTruthy ld "playcount" then 1/20 else 0)

/-- Reduction lemma: truthiness of a present optional value. -/
theorem truthyOpt_some (v : PyVal) : truthyOpt (some v) = truthy v := rfl

/-- Reduction lemma: `None` is falsy. -/
theorem truthyOpt_none : truthyOpt none = false := rfl

section
set_option maxHeartbeats 1000000

/-- Evaluation of `_calculate_confidence`: it equals the capped ladder and
lies in `[0,1]` whenever the stored Last.fm payload is dict-shaped. -/
theorem calculateConfidence_eval (ld md : Option PyVal) (cg : List PyKey)
    (hshape : dictWhenTruthy ld = true) :
    calculateConfidence ld md cg = .ok (min (confidenceLadder ld md cg) 1) ∧
    0 ≤ min (confidenceLadder ld md cg) 1 ∧
    min (confidenceLadder ld md cg) 1 ≤ 1 := by
  refine ⟨?_, ?_, min_le_right _ _⟩
  · match ld with
    | none =>
      by_cases hmd : truthyOpt md = true <;> by_cases hcg : cg.isEmpty = true <;>
        simp [calculateConfidence, confidenceLadder, truthyOpt_none, truthyOpt_some,
          lastfmFieldTruthy, hmd, hcg, pure, Except.pure]
    | some (.dict fs) =>
      by_cases ht : truthy (.dict fs) = true
      · by_cases hmd : truthyOpt md = true <;> by_cases hcg : cg.isEmpty = true <;>
        by_cases h1 : truthy ((dictLookup fs "artist_info").getD .pnone) = true <;>
        by_cases h2 : truthy ((dictLookup fs "similar_tracks").getD .pnone) = true <;>
        by_cases h3 : truthy ((dictLookup fs "playcount").getD .pnone) = true <;>
          simp [calculateConfidence, confidenceLadder, pyGet, pyGetD, truthyOpt_some,
            lastfmFieldTruthy, ht, hmd, hcg, h1, h2, h3, Bind.bind, Except.bind,
            pure, Except.pure]
      · by_cases hmd : truthyOpt md = true <;> by_cases hcg : cg.isEmpty = true <;>
          simp [calculateConfidence, confidenceLadder, truthyOpt_some,
            lastfmFieldTruthy, ht, hmd, hcg, pure, Except.pure]
    | some .pnone =>
      by_cases hmd : truthyOpt md = true <;> by_cases hcg : cg.isEmpty = true <;>
        simp [calculateConfidence, confidenceLadder, truthy, truthyOpt_some,
          lastfmFieldTruthy, hmd, hcg, pure, Except.pure]
    | some (.str s) =>
      have ht : truthy (.str s) = false := by
        revert hshape
        simp [dictWhenTruthy]
      by_cases hmd : truthyOpt md = true <;> by_cases hcg : cg.isEmpty = true <;>
        simp [calculateConfidence, confidenceLadder, truthyOpt_some,
          lastfmFieldTruthy, ht, hmd, hcg, pure, Except.pure]
    | some (.num q) =>
      have ht : truthy (.num q) = false := by
        revert hshape
        simp [dictWhenTruthy]
      by_cases hmd : truthyOpt md = true <;> by_cases hcg : cg.isEmpty = true <;>
        simp [calculateConfidence, confidenceLadder, truthyOpt_some,
          lastfmFieldTruthy, ht, hmd, hcg, pure, Except.pure]
    | some (.list xs) =>
      have ht : truthy (.list xs) = false := by
        revert hshape
        simp [dictWhenTruthy]
      by_cases hmd : truthyOpt md = true <;> by_cases hcg : cg.isEmpty = true <;>
        simp [calculateConfidence, confidenceLadder, truthyOpt_some,
          lastfmFieldTruthy, ht, hmd, hcg, pure, Except.pure]
  · refine le_min ?_ (by norm_num)
    unfold confidenceLadder
    split_ifs <;> norm_num

end

/-- C6 (confirmed): `_calculate_confidence` equals the fixed ladder — base
`0.8`/`0.6`/`0.0` for two/one/zero providers answered, `+0.1` when any
combined tag exists, `+0.05` each for truthy artist-info, similar-tracks
and play-count data — capped at `1.0` and therefore always in `[0,1]`. -/
theorem C6_source_confidence (ld md : Option PyVal) (cg : List PyKey)
    (hshape : dictWhenTruthy ld = true) :
    calculateConfidence ld md cg = .ok (min (confidenceLadder ld md cg) 1) ∧
    0 ≤ min (confidenceLadder ld md cg) 1 ∧
    min (confidenceLadder ld md cg) 1 ≤ 1 :=
  calculateConfidence_eval ld md cg hshape

/-- C6 witness: the confidence-ladder theorem applied to a concrete stored
payload pair (one provider answered, tags found, artist info present). -/
theorem C6_source_confidence_witness :
    calculateConfidence (some (.dict [("artist_info", .dict [("tags", .pnone)])]))
        none [.kstr "house"] =
      .ok (min (confidenceLadder
        (some (.dict [("artist_info", .dict [("tags", .pnone)])]))
        none [.kstr "house"]) 1) ∧
    0 ≤ min (confidenceLadder
        (some (.dict [("artist_info", .dict [("tags", .pnone)])]))
        none [.kstr "house"]) 1 ∧
    min (confidenceLadder
        (some (.dict [("artist_info", .dict [("tags", .pnone)])]))
        none [.kstr "house"]) 1 ≤ 1 :=
  C6_source_confidence (some (.dict [("artist_info", .dict [("tags", .pnone)])]))
    none [.kstr "house"] (by decide)

/-- A research computation succeeded (no Python exception). -/
def eok {α : Type} (m : Except PyErr α) : Prop := ∃ a, m = .ok a

/-- Reduction lemma: binding a successful computation. -/
theorem ok_bind {α β : Type} (a : α) (k : α → Except PyErr β) :
    ((Except.ok a : Except PyErr α) >>= k) = k a := rfl

/-- Reduction lemma: `.get` on a dict never raises. -/
theorem getD_dict (fs : List (String × PyVal)) (k : String) (d : PyVal) :
    pyGetD (.dict fs) k d = .ok ((dictLookup fs k).getD d) := rfl

/-- Success of a bind, from success of both stages. -/
theorem eok_bind {α β : Type} {m : Except PyErr α} {k : α → Except PyErr β}
    (h1 : eok m) (h2 : ∀ a, m = .ok a → eok (k a)) : eok (m >>= k) := by
  obtain ⟨a, ha⟩ := h1
  obtain ⟨b, hb⟩ := h2 a ha
  exact ⟨b, by rw [ha, ok_bind]; exact hb⟩

/-- A `pure`/`return` never raises. -/
theorem eok_pure {α : Type} (a : α) : eok (pure a : Except PyErr α) := ⟨a, rfl⟩

/-- Shape of one entry of a `'tag'` list: if it is a dict with a `'name'`
key, the name must be a string (non-dict entries are skipped by the
source's `isinstance` guard and need no constraint). -/
def tagItemOk : PyVal → Bool
  | .dict fs =>
    (match dictLookup fs "name" with
     | none => true
     | some (.str _) => true
     | some _ => false)
  | _ => true

/-- Shape of a `'tag'` field value: a list of well-shaped entries, one
well-shaped dict entry, or any other value (skipped by the guards). -/
def tagValOk : PyVal → Bool
  | .list items => items.all tagItemOk
  | .dict fs =>
    (match dictLookup fs "name" with
     | none => true
     | some (.str _) => true
     | some _ => false)
  | _ => true

/-- Shape of a tag container (`toptags`/`tags` object): it must be a dict
(it receives a `.get` call) whose `'tag'` field, if any, is well shaped. -/
def tagContainerValOk : PyVal → Bool
  | .dict tfs =>
    (match dictLookup tfs "tag" with
     | none => true
     | some tv => tagValOk tv)
  | _ => false

/-- Shape of a textual field: absent or a string. -/
def strFieldOk (fs : List (String × PyVal)) (k : String) : Bool :=
  match dictLookup fs k with
  | none => true
  | some (.str _) => true
  | some _ => false

/-- Shape of the Last.fm `'artist'` field: absent or a dict whose
`'name'`, if any, is a string. -/
def artistFieldOk (fs : List (String × PyVal)) : Bool :=
  match dictLookup fs "artist" with
  | none => true
  | some (.dict afs) => strFieldOk afs "name"
  | some _ => false

/-- Shape of the Last.fm `'artist_info'` field: falsy (skipped by the
`if artist_info:` guard) or a dict with a well-shaped `'tags'` container. -/
def artistInfoFieldOk (fs : List (String × PyVal)) : Bool :=
  let ai := (dictLookup fs "artist_info").getD (.dict [])
  !truthy ai ||
    (match ai with
     | .dict afs => tagContainerValOk ((dictLookup afs "tags").getD (.dict []))
     | _ => false)

/-- Shape of one entry of the `'similar_tracks'` list: a dict with a
well-shaped `'toptags'` container. -/
def similarEntryOk : PyVal → Bool
  | .dict sfs => tagContainerValOk ((dictLookup sfs "toptags").getD (.dict []))
  | _ => false

/-- Shape of the Last.fm `'similar_tracks'` field: (defaulting to `[]`) a
list of well-shaped entries. -/
def similarTracksFieldOk (fs : List (String × PyVal)) : Bool :=
  match (dictLookup fs "similar_tracks").getD (.list []) with
  | .list sts => sts.all similarEntryOk
  | _ => false

/-- Shape of the well-formed Last.fm track payload as `_detect_remix`,
`_combine_genres` and `_calculate_confidence` access it. -/
def wellShapedLastfm : PyVal → Bool
  | .dict fs =>
    strFieldOk fs "name" && artistFieldOk fs &&
    tagContainerValOk ((dictLookup fs "toptags").getD (.dict [])) &&
    artistInfoFieldOk fs && similarTracksFieldOk fs
  | _ => false

/-- Shape of the well-formed MusicBrainz payload. -/
def wellShapedMB : PyVal → Bool
  | .dict fs =>
    strFieldOk fs "title" && strFieldOk fs "artist-credit-phrase" &&
    tagValOk ((dictLookup fs "tag-list").getD (.list []))
  | _ => false

/-- Shape of an optional provider response: absent or falsy responses are
never dereferenced, truthy ones must be well shaped. -/
def optionShapeOk (shape : PyVal → Bool) : Option PyVal → Bool
  | none => true
  | some v => !truthy v || shape v

/-- One entry of the tag loop in `collectTags` never raises when the
entry is well shaped. -/
theorem collectTags_item_ok (t : PyVal) (h : tagItemOk t = true) (pool : List PyKey) :
    eok (match t with
      | .dict fs =>
        match dictLookup fs "name" with
        | some v => setAdd pool v
        | none => (.ok pool : Except PyErr (List PyKey))
      | _ => .ok pool) := by
  match t with
  | .pnone => exact ⟨pool, rfl⟩
  | .str s => exact ⟨pool, rfl⟩
  | .num q => exact ⟨pool, rfl⟩
  | .list xs => exact ⟨pool, rfl⟩
  | .dict fs =>
    match hn : dictLookup fs "name" with
    | none => simp only [hn]; exact ⟨pool, rfl⟩
    | some w =>
      simp only [hn]
      match w with
      | .str s => exact ⟨pool ++ [PyKey.kstr s], by simp [setAdd]⟩
      | .pnone => simp [tagItemOk, hn] at h
      | .num q => simp [tagItemOk, hn] at h
      | .list xs => simp [tagItemOk, hn] at h
      | .dict gs => simp [tagItemOk, hn] at h

/-- The tag-list fold of `collectTags` never raises when every entry is
well shaped. -/
theorem collectTags_list_ok : ∀ (items : List PyVal),
    items.all tagItemOk = true → ∀ pool : List PyKey,
    eok (items.foldlM (fun acc t =>
      match t with
      | .dict fs =>
        match dictLookup fs "name" with
        | some v => setAdd acc v
        | none => (.ok acc : Except PyErr (List PyKey))
      | _ => .ok acc) pool)
  | [], _, pool => ⟨pool, rfl⟩
  | t :: ts, h, pool => by
    obtain ⟨ht, hts⟩ : tagItemOk t = true ∧ ts.all tagItemOk = true := by
      simpa [List.all_cons] using h
    rw [List.foldlM_cons]
    exact eok_bind (collectTags_item_ok t ht pool)
      (fun acc _ => collectTags_list_ok ts hts acc)

/-- `collectTags` never raises on a well-shaped `'tag'` value (every name
it adds is a string, hence hashable). -/
theorem collectTags_ok (tv : PyVal) (h : tagValOk tv = true) (pool : List PyKey) :
    eok (collectTags tv pool) := by
  match tv with
  | .list items =>
    show eok (items.foldlM _ pool)
    exact collectTags_list_ok items (by simpa [tagValOk] using h) pool
  | .dict fs =>
    match hn : dictLookup fs "name" with
    | none => exact ⟨pool, by simp [collectTags, hn]⟩
    | some (.str s) => exact ⟨pool ++ [.kstr s], by simp [collectTags, hn, setAdd]⟩
    | some .pnone => simp [tagValOk, hn] at h
    | some (.num q) => simp [tagValOk, hn] at h
    | some (.list xs) => simp [tagValOk, hn] at h
    | some (.dict gs) => simp [tagValOk, hn] at h
  | .pnone => exact ⟨pool, rfl⟩
  | .str s => exact ⟨pool, rfl⟩
  | .num q => exact ⟨pool, rfl⟩

/-- `tagChain` never raises on a well-shaped tag container. -/
theorem tagChain_ok (c : PyVal) (h : tagContainerValOk c = true) (pool : List PyKey) :
    eok (tagChain c pool) := by
  match c, h with
  | .dict tfs, h =>
    unfold tagChain
    rw [getD_dict, ok_bind]
    match ht : dictLookup tfs "tag" with
    | none =>
      simp only [ht, Option.getD]
      exact collectTags_ok (.list []) (by decide) pool
    | some tv =>
      simp only [tagContainerValOk, ht] at h
      simp only [ht, Option.getD]
      exact collectTags_ok tv h pool

/-- The similar-tracks fold of `lastfmGenreAdds` never raises when every
entry is well shaped. -/
theorem similarFold_ok : ∀ (sts : List PyVal), sts.all similarEntryOk = true →
    ∀ pool : List PyKey,
    eok (sts.foldlM (fun acc st => do
      let toptags ← pyGetD st "toptags" (.dict [])
      tagChain toptags acc) pool)
  | [], _, pool => ⟨pool, rfl⟩
  | st :: sts, h, pool => by
    obtain ⟨h1, hts⟩ : similarEntryOk st = true ∧ sts.all similarEntryOk = true := by
      simpa [List.all_cons] using h
    rw [List.foldlM_cons]
    refine eok_bind ?_ (fun acc _ => similarFold_ok sts hts acc)
    match st, h1 with
    | .dict sfs, h1 =>
      rw [getD_dict, ok_bind]
      exact tagChain_ok _ (by simpa [similarEntryOk] using h1) pool

/-- `artistInfoAdds` never raises on a well-shaped artist-info value. -/
theorem artistInfoAdds_ok (ai : PyVal)
    (h : (!truthy ai ||
      (match ai with
       | .dict afs => tagContainerValOk ((dictLookup afs "tags").getD (.dict []))
       | _ => false)) = true) (pool : List PyKey) :
    eok (artistInfoAdds ai pool) := by
  unfold artistInfoAdds
  by_cases ht : truthy ai = true
  · simp only [ht, if_true]
    match ai, h with
    | .dict afs, h =>
      rw [getD_dict, ok_bind]
      refine tagChain_ok _ ?_ pool
      rw [ht] at h
      simpa using h
    | .pnone, h => simp [truthy] at ht
    | .str s, h => rw [ht] at h; simp at h
    | .num q, h => rw [ht] at h; simp at h
    | .list xs, h => rw [ht] at h; simp at h
  · simp only [Bool.not_eq_true] at ht
    simp only [ht, if_false]
    exact eok_pure pool

/-- `similarAdds` never raises on a well-shaped similar-tracks value. -/
theorem similarAdds_ok (sim : PyVal)
    (h : (match sim with
          | .list sts => sts.all similarEntryOk
          | _ => false) = true) (pool : List PyKey) :
    eok (similarAdds sim pool) := by
  match sim, h with
  | .list sts, h =>
    unfold similarAdds
    simp only [pyIter, ok_bind]
    exact similarFold_ok sts (by simpa using h) pool

/-- `lastfmGenreAdds` never raises on a well-shaped Last.fm payload. -/
theorem lastfmGenreAdds_ok (fs : List (String × PyVal))
    (h : wellShapedLastfm (.dict fs) = true) (pool : List PyKey) :
    eok (lastfmGenreAdds (.dict fs) pool) := by
  have hparts : strFieldOk fs "name" = true ∧ artistFieldOk fs = true ∧
      tagContainerValOk ((dictLookup fs "toptags").getD (.dict [])) = true ∧
      artistInfoFieldOk fs = true ∧ similarTracksFieldOk fs = true := by
    simpa [wellShapedLastfm, Bool.and_assoc] using h
  obtain ⟨-, -, htop, hai, hsim⟩ := hparts
  unfold lastfmGenreAdds
  rw [getD_dict, ok_bind]
  refine eok_bind (tagChain_ok _ htop pool) (fun pool1 _ => ?_)
  rw [getD_dict, ok_bind]
  refine eok_bind (artistInfoAdds_ok _ ?_ pool1) (fun pool2 _ => ?_)
  · have := hai
    unfold artistInfoFieldOk at this
    exact this
  · rw [getD_dict, ok_bind]
    refine similarAdds_ok _ ?_ pool2
    have := hsim
    unfold similarTracksFieldOk at this
    exact this

/-- `mbGenreAdds` never raises on a well-shaped MusicBrainz payload. -/
theorem mbGenreAdds_ok (fs : List (String × PyVal))
    (h : wellShapedMB (.dict fs) = true) (pool : List PyKey) :
    eok (mbGenreAdds (.dict fs) pool) := by
  have htl : tagValOk ((dictLookup fs "tag-list").getD (.list [])) = true := by
    have := h
    simp only [wellShapedMB, Bool.and_eq_true] at this
    exact this.2
  unfold mbGenreAdds
  rw [getD_dict, ok_bind]
  exact collectTags_ok _ htl pool

/-- `lastfmSection` never raises on a well-shaped optional payload. -/
theorem lastfmSection_ok (ld : Option PyVal)
    (hl : optionShapeOk wellShapedLastfm ld = true) :
    eok (lastfmSection ld) := by
  match ld, hl with
  | none, _ => exact eok_pure []
  | some v, hl =>
    by_cases ht : truthy v = true
    · have hshape : wellShapedLastfm v = true := by
        simp only [optionShapeOk, ht, Bool.not_true, Bool.false_or] at hl
        exact hl
      match v, hshape with
      | .dict fs, hshape =>
        simp only [lastfmSection, ht, if_true]
        exact lastfmGenreAdds_ok fs hshape []
    · simp only [Bool.not_eq_true] at ht
      simp only [lastfmSection, ht, if_false]
      exact eok_pure []

/-- `mbSection` never raises on a well-shaped optional payload. -/
theorem mbSection_ok (md : Option PyVal)
    (hm : optionShapeOk wellShapedMB md = true) (pool : List PyKey) :
    eok (mbSection md pool) := by
  match md, hm with
  | none, _ => exact eok_pure pool
  | some v, hm =>
    by_cases ht : truthy v = true
    · have hshape : wellShapedMB v = true := by
        simp only [optionShapeOk, ht, Bool.not_true, Bool.false_or] at hm
        exact hm
      match v, hshape with
      | .dict fs, hshape =>
        simp only [mbSection, ht, if_true]
        exact mbGenreAdds_ok fs hshape pool
    · simp only [Bool.not_eq_true] at ht
      simp only [mbSection, ht, if_false]
      exact eok_pure pool

/-- `_combine_genres` never raises on well-shaped provider payloads. -/
theorem combineGenres_ok (ld md : Option PyVal)
    (hl : optionShapeOk wellShapedLastfm ld = true)
    (hm : optionShapeOk wellShapedMB md = true) :
    eok (combineGenres ld md) := by
  unfold combineGenres
  refine eok_bind (lastfmSection_ok ld hl) (fun pool1 _ => ?_)
  exact eok_bind (mbSection_ok md hm pool1) (fun pool2 _ => eok_pure _)

/-- Lowercasing a string-or-absent field (with the `''` default) never
raises. -/
theorem strField_lower_ok (fs : List (String × PyVal)) (k : String)
    (h : strFieldOk fs k = true) :
    eok (pyLower ((dictLookup fs k).getD (.str ""))) := by
  unfold strFieldOk at h
  match hv : dictLookup fs k with
  | none => exact ⟨strLower "", rfl⟩
  | some (.str s) => exact ⟨strLower s, rfl⟩
  | some .pnone => rw [hv] at h; simp at h
  | some (.num q) => rw [hv] at h; simp at h
  | some (.list xs) => rw [hv] at h; simp at h
  | some (.dict gs) => rw [hv] at h; simp at h

/-- The Last.fm block of `_detect_remix` never raises on a well-shaped
optional payload. -/
theorem lastfmRemixHit_ok (ld : Option PyVal)
    (hl : optionShapeOk wellShapedLastfm ld = true) :
    eok (lastfmRemixHit ld) := by
  match ld, hl with
  | none, _ => exact eok_pure false
  | some d, hl =>
    by_cases ht : truthy d = true
    · have hshape : wellShapedLastfm d = true := by
        simp only [optionShapeOk, ht, Bool.not_true, Bool.false_or] at hl
        exact hl
      match d, hshape with
      | .dict fs, hshape =>
        have hparts : strFieldOk fs "name" = true ∧ artistFieldOk fs = true := by
          simp only [wellShapedLastfm, Bool.and_eq_true, Bool.and_assoc] at hshape
          exact ⟨hshape.1, hshape.2.1⟩
        simp only [lastfmRemixHit, ht, if_true]
        rw [getD_dict, ok_bind]
        refine eok_bind (strField_lower_ok fs "name" hparts.1) (fun lname _ => ?_)
        rw [getD_dict, ok_bind]
        have hart := hparts.2
        unfold artistFieldOk at hart
        match ha : dictLookup fs "artist" with
        | none =>
          simp only [Option.getD]
          rw [getD_dict, ok_bind]
          exact eok_bind ⟨strLower "", rfl⟩ (fun z _ => eok_pure _)
        | some (.dict afs) =>
          simp only [Option.getD]
          rw [getD_dict, ok_bind]
          rw [ha] at hart
          exact eok_bind (strField_lower_ok afs "name" hart) (fun z _ => eok_pure _)
        | some .pnone => rw [ha] at hart; simp at hart
        | some (.str s) => rw [ha] at hart; simp at hart
        | some (.num q) => rw [ha] at hart; simp at hart
        | some (.list xs) => rw [ha] at hart; simp at hart
    · simp only [Bool.not_eq_true] at ht
      simp only [lastfmRemixHit, ht, if_false]
      exact eok_pure false

/-- The MusicBrainz block of `_detect_remix` never raises on a well-shaped
optional payload. -/
theorem mbRemixHit_ok (md : Option PyVal)
    (hm : optionShapeOk wellShapedMB md = true) :
    eok (mbRemixHit md) := by
  match md, hm with
  | none, _ => exact eok_pure false
  | some d, hm =>
    by_cases ht : truthy d = true
    · have hshape : wellShapedMB d = true := by
        simp only [optionShapeOk, ht, Bool.not_true, Bool.false_or] at hm
        exact hm
      match d, hshape with
      | .dict fs, hshape =>
        have hparts : strFieldOk fs "title" = true ∧
            strFieldOk fs "artist-credit-phrase" = true := by
          simp only [wellShapedMB, Bool.and_eq_true, Bool.and_assoc] at hshape
          exact ⟨hshape.1, hshape.2.1⟩
        simp only [mbRemixHit, ht, if_true]
        rw [getD_dict, ok_bind]
        refine eok_bind (strField_lower_ok fs "title" hparts.1) (fun t _ => ?_)
        rw [getD_dict, ok_bind]
        exact eok_bind (strField_lower_ok fs "artist-credit-phrase" hparts.2)
          (fun a _ => eok_pure _)
    · simp only [Bool.not_eq_true] at ht
      simp only [mbRemixHit, ht, if_false]
      exact eok_pure false

/-- `_detect_remix` never raises on well-shaped optional payloads. -/
theorem detectRemix_ok (title artist : String) (ld md : Option PyVal)
    (hl : optionShapeOk wellShapedLastfm ld = true)
    (hm : optionShapeOk wellShapedMB md = true) :
    eok (detectRemix title artist ld md) := by
  unfold detectRemix
  split_ifs
  · exact eok_pure true
  · exact eok_pure true
  · refine eok_bind (lastfmRemixHit_ok ld hl) (fun b1 _ => ?_)
    cases b1
    · simp only [Bool.false_eq_true, if_false]
      refine eok_bind (mbRemixHit_ok md hm) (fun b2 _ => ?_)
      cases b2
      · exact eok_pure false
      · exact eok_pure true
    · exact eok_pure true

/-- The stored provider payload (kept only when truthy) is dict-shaped
whenever the raw response is well shaped. -/
theorem stored_dictWhenTruthy (resp : Option PyVal)
    (h : optionShapeOk wellShapedLastfm resp = true) :
    dictWhenTruthy (storeIfTruthy resp) = true := by
  unfold storeIfTruthy
  match resp, h with
  | none, _ => rfl
  | some v, h =>
    by_cases ht : truthy v = true
    · have hshape : wellShapedLastfm v = true := by
        simp only [optionShapeOk, ht, Bool.not_true, Bool.false_or] at h
        exact hshape_aux v h
      match v, hshape with
      | .dict fs, _ => simp [ht, dictWhenTruthy]
    · simp only [Bool.not_eq_true] at ht
      simp [ht, dictWhenTruthy]
where
  hshape_aux (v : PyVal) (h : wellShapedLastfm v = true) : wellShapedLastfm v = true := h

/-- `research_track` never raises on well-shaped provider responses. -/
theorem researchTrack_ok (tid title artist : String) (ld md : Option PyVal)
    (enum : List PyKey → List PyKey)
    (hl : optionShapeOk wellShapedLastfm ld = true)
    (hm : optionShapeOk wellShapedMB md = true) :
    eok (researchTrack tid title artist ld md enum) := by
  unfold researchTrack
  refine eok_bind (detectRemix_ok title artist ld md hl hm) (fun isRemix _ => ?_)
  refine eok_bind (combineGenres_ok ld md hl hm) (fun pooled _ => ?_)
  refine eok_bind ⟨_, (calculateConfidence_eval _ _ _ (stored_dictWhenTruthy ld hl)).1⟩
    (fun conf _ => eok_pure _)

/-- C2 counterexample: a partially-shaped Last.fm payload whose `'artist'`
field is a string (a shape the real Last.fm API does produce) makes
`research_track` raise: `_detect_remix` line 184 calls
`lastfm_data.get('artist', {}).get('name', '')`, and the inner `.get` on a
string raises `AttributeError`, which `research_track` does not catch. -/
theorem C2_research_track_counterexample :
    (researchTrack "t" "Song" "Artist"
        (some (.dict [("name", .str "Song"), ("artist", .str "Artist")])) none id).map
      (fun r => r.trackId) = .error PyErr.attributeError := by decide

/-- C2 (amended): `research_track` returns a `MusicResearchResult` and
never raises, provided each provider payload is well shaped — its nested
fields have the dict/list/string shapes the access paths expect (absent or
falsy payloads are always safe).  A payload violating those shapes, such
as a string-valued `'artist'`, raises instead of degrading. -/
theorem C2_research_track_amended (tid title artist : String)
    (ld md : Option PyVal) (enum : List PyKey → List PyKey)
    (hl : optionShapeOk wellShapedLastfm ld = true)
    (hm : optionShapeOk wellShapedMB md = true) :
    ∃ r, researchTrack tid title artist ld md enum = .ok r :=
  researchTrack_ok tid title artist ld md enum hl hm

/-- C2 witness: the amended theorem applied to a concrete well-shaped
payload pair. -/
theorem C2_research_track_witness :
    ∃ r, researchTrack "t" "Song" "DJ"
      (some (.dict [("name", .str "Song (Remix)"),
                    ("artist", .dict [("name", .str "DJ")]),
                    ("toptags", .dict [("tag", .list [.dict [("name", .str "house")]])])]))
      (some (.dict [("title", .str "Song"),
                    ("tag-list", .list [.dict [("name", .str "house")]])]))
      id = .ok r :=
  C2_research_track_amended "t" "Song" "DJ" _ _ id (by decide) (by decide)

/-- C10 (confirmed): every `GenreAnalysis` that `analyze_track` returns
carries `analysis_method` equal to `"audio_analysis"` — and that exactly
when the audio classifier produced a non-`UNKNOWN` genre with confidence
at least `0.7` — or `"metadata_analysis"` in every other case; the
initialisation value `"metadata_only"` is never observable. -/
theorem C10_analysis_method (tid : String) (audioRes : Option (Genre × ℚ))
    (rr : MusicResearchResult) (a : GenreAnalysis)
    (h : analyzeTrack tid audioRes rr = .ok a) :
    (a.analysisMethod = "audio_analysis" ∨ a.analysisMethod = "metadata_analysis") ∧
    a.analysisMethod ≠ "metadata_only" ∧
    (a.analysisMethod = "audio_analysis" ↔
      ∃ g c, audioRes = some (g, c) ∧ g ≠ Genre.UNKNOWN ∧ 7/10 ≤ c) := by
  match audioRes with
  | none =>
    simp only [analyzeTrack, true_or, if_true] at h
    cases hp : predictFromMetadata rr.combinedGenres rr.isRemix with
    | error e =>
      rw [hp] at h
      simp [Bind.bind, Except.bind] at h
    | ok gc =>
      rw [hp, ok_bind] at h
      simp only [pure, Except.pure, Except.ok.injEq] at h
      subst h
      refine ⟨Or.inr rfl, ?_, iff_of_false ?_ ?_⟩
      · show ("metadata_analysis" : String) ≠ "metadata_only"
        decide
      · show ¬ (("metadata_analysis" : String) = "audio_analysis")
        decide
      · rintro ⟨g', c', hcontra, -, -⟩
        exact absurd hcontra (by simp)
  | some gc =>
    obtain ⟨g, c⟩ := gc
    by_cases hcond : (g = Genre.UNKNOWN ∨ c < 7/10)
    · simp only [analyzeTrack] at h
      rw [if_pos hcond] at h
      cases hp : predictFromMetadata rr.combinedGenres rr.isRemix with
      | error e =>
        rw [hp] at h
        simp [Bind.bind, Except.bind] at h
      | ok gc' =>
        rw [hp, ok_bind] at h
        simp only [pure, Except.pure, Except.ok.injEq] at h
        subst h
        refine ⟨Or.inr rfl, ?_, iff_of_false ?_ ?_⟩
        · show ("metadata_analysis" : String) ≠ "metadata_only"
          decide
        · show ¬ (("metadata_analysis" : String) = "audio_analysis")
          decide
        · rintro ⟨g2, c2, heq, hne, hge⟩
          obtain ⟨rfl, rfl⟩ : g2 = g ∧ c2 = c := by simpa using heq.symm
          rcases hcond with hu | hlt
          · exact hne hu
          · exact absurd hge (not_le.mpr hlt)
    · simp only [analyzeTrack] at h
      rw [if_neg hcond] at h
      simp only [pure, Except.pure, Except.ok.injEq] at h
      subst h
      push_neg at hcond
      refine ⟨Or.inl rfl, ?_, iff_of_true rfl ⟨g, c, rfl, hcond.1, hcond.2⟩⟩
      show ("audio_analysis" : String) ≠ "metadata_only"
      decide

/-- The analysis record produced when a confident audio prediction is
kept (used to witness the method invariant). -/
def audioKeptAnalysis : GenreAnalysis :=
  { trackId := "t", predictedGenre := .TECHNO, confidence := 1, isRemix := false,
    analysisMethod := "audio_analysis",
    playlistSuggestions := generatePlaylistSuggestions .TECHNO }

/-- C10 witness: the method invariant applied to a concrete confident
audio classification. -/
theorem C10_analysis_method_witness :
    (audioKeptAnalysis.analysisMethod = "audio_analysis" ∨
      audioKeptAnalysis.analysisMethod = "metadata_analysis") ∧
    audioKeptAnalysis.analysisMethod ≠ "metadata_only" ∧
    (audioKeptAnalysis.analysisMethod = "audio_analysis" ↔
      ∃ g c, (some (Genre.TECHNO, (1 : ℚ)) : Option (Genre × ℚ)) = some (g, c) ∧
        g ≠ Genre.UNKNOWN ∧ 7/10 ≤ c) :=
  C10_analysis_method "t" (some (.TECHNO, 1)) { trackId := "t" } audioKeptAnalysis
    (by
      simp only [analyzeTrack]
      rw [if_neg (by rintro (hc | hc); exacts [absurd hc (by decide), by norm_num at hc])]
      rfl)

/-- C3 counterexample: a remix track whose trained classifier confidently
predicts `HOUSE` with probability `0.9` keeps confidence `0.9` — the
`confidence *= 0.8` adjustment lives only inside `_predict_from_metadata`
(lines 218-222) and is never applied on the audio path, so the returned
confidence is not `0.8` times the pre-penalty value. -/
theorem C3_remix_penalty_counterexample :
    (analyzeTrack "t" (some (Genre.HOUSE, 9/10))
        { trackId := "t", isRemix := true }).map
      (fun a => (a.predictedGenre, a.confidence, a.isRemix, a.analysisMethod)) =
      .ok (Genre.HOUSE, 9/10, true, "audio_analysis") ∧
    (9 : ℚ)/10 ≠ (9/10) * (4/5) := by
  constructor
  · simp only [analyzeTrack]
    rw [if_neg (by rintro (hc | hc); exacts [absurd hc (by decide), by norm_num at hc])]
    rfl
  · norm_num

/-- C3 (amended): the `0.8` remix multiplier is applied exactly on the
metadata path: whenever `analyze_track` resolves via metadata analysis a
genre other than `UNKNOWN` for a remix, the returned confidence is the
raw metadata vote times `0.8`; the audio path applies no penalty. -/
theorem C3_remix_penalty_amended (tid : String) (audioRes : Option (Genre × ℚ))
    (rr : MusicResearchResult) (a : GenreAnalysis)
    (hremix : rr.isRemix = true)
    (h : analyzeTrack tid audioRes rr = .ok a)
    (hmethod : a.analysisMethod = "metadata_analysis")
    (hg : a.predictedGenre ≠ Genre.UNKNOWN) :
    ∃ c0, metadataVote rr.combinedGenres = .ok (a.predictedGenre, c0) ∧
      a.confidence = c0 * (4/5) := by
  have main : ∀ (gc : Genre × ℚ),
      predictFromMetadata rr.combinedGenres rr.isRemix = .ok gc →
      gc.1 ≠ Genre.UNKNOWN →
      ∃ c0, metadataVote rr.combinedGenres = .ok (gc.1, c0) ∧ gc.2 = c0 * (4/5) := by
    rintro ⟨g, c⟩ hp hne
    unfold predictFromMetadata at hp
    cases hv : metadataVote rr.combinedGenres with
    | error e =>
      rw [hv] at hp
      simp [Bind.bind, Except.bind] at hp
    | ok gc0 =>
      obtain ⟨g0, c0⟩ := gc0
      rw [hv, ok_bind] at hp
      simp only [pure, Except.pure, Except.ok.injEq, Prod.mk.injEq] at hp
      obtain ⟨hg0, hc⟩ := hp
      subst hg0
      subst hc
      refine ⟨c0, rfl, ?_⟩
      have hne' : g0 ≠ Genre.UNKNOWN := hne
      simp [hremix, hne']
  match audioRes with
  | none =>
    simp only [analyzeTrack, true_or, if_true] at h
    cases hp : predictFromMetadata rr.combinedGenres rr.isRemix with
    | error e =>
      rw [hp] at h
      simp [Bind.bind, Except.bind] at h
    | ok gc =>
      rw [hp, ok_bind] at h
      simp only [pure, Except.pure, Except.ok.injEq] at h
      subst h
      exact main gc hp hg
  | some gc =>
    obtain ⟨g, c⟩ := gc
    by_cases hcond : (g = Genre.UNKNOWN ∨ c < 7/10)
    · simp only [analyzeTrack] at h
      rw [if_pos hcond] at h
      cases hp : predictFromMetadata rr.combinedGenres rr.isRemix with
      | error e =>
        rw [hp] at h
        simp [Bind.bind, Except.bind] at h
      | ok gc' =>
        rw [hp, ok_bind] at h
        simp only [pure, Except.pure, Except.ok.injEq] at h
        subst h
        exact main gc' hp hg
    · simp only [analyzeTrack] at h
      rw [if_neg hcond] at h
      simp only [pure, Except.pure, Except.ok.injEq] at h
      subst h
      have h2 : ("audio_analysis" : String) = "metadata_analysis" := hmethod
      exact absurd h2 (by decide)

/-- Evaluation of the metadata vote on the single pooled tag `"house"`
for a remix: one vote out of one, times the remix multiplier. -/
theorem predictFromMetadata_house_remix :
    predictFromMetadata [PyKey.kstr "house"] true = .ok (Genre.HOUSE, 4/5) := by
  unfold predictFromMetadata metadataVote
  rw [if_neg (by decide)]
  have hl : [PyKey.kstr "house"].mapM pyLowerKey = .ok ["house"] := by decide
  rw [hl, ok_bind]
  have hm : maxBySecond (countsOf ["house"]) = some ("house", 1) := by decide
  rw [hm]
  simp [pure, Except.pure, Bind.bind, Except.bind, genreMapping]

/-- A concrete remix evidence bundle with a single pooled tag. -/
def remixHouseRR : MusicResearchResult :=
  { trackId := "t", combinedGenres := [PyKey.kstr "house"], isRemix := true }

/-- The analysis the metadata path produces for `remixHouseRR`. -/
def remixHouseAnalysis : GenreAnalysis :=
  { trackId := "t", predictedGenre := Genre.HOUSE, confidence := 4/5,
    isRemix := true, analysisMethod := "metadata_analysis",
    playlistSuggestions := generatePlaylistSuggestions Genre.HOUSE }

/-- C3 witness: the amended remix-penalty theorem applied to a concrete
remix evidence bundle resolved on the metadata path. -/
theorem C3_remix_penalty_witness :
    ∃ c0, metadataVote remixHouseRR.combinedGenres =
      .ok (remixHouseAnalysis.predictedGenre, c0) ∧
      remixHouseAnalysis.confidence = c0 * (4/5) :=
  C3_remix_penalty_amended "t" none remixHouseRR remixHouseAnalysis
    rfl
    (by
      simp only [remixHouseRR, analyzeTrack, true_or, if_true]
      rw [predictFromMetadata_house_remix, ok_bind]
      rfl)
    rfl (by decide)

/-- Membership origin of `bumpCount`: a key of the bumped table is the
bumped key or was already a key. -/
theorem bumpCount_mem : ∀ (acc : List (String × Nat)) (s t : String) (n : Nat),
    (t, n) ∈ bumpCount acc s → t = s ∨ ∃ m, (t, m) ∈ acc
  | [], s, t, n, h => by
    simp [bumpCount] at h
    exact Or.inl h.1
  | (u, k) :: rest, s, t, n, h => by
    by_cases hu : u = s
    · simp only [bumpCount, hu, if_true] at h
      rcases List.mem_cons.mp h with h1 | h1
      · simp only [Prod.mk.injEq] at h1
        exact Or.inl h1.1
      · exact Or.inr ⟨n, List.mem_cons_of_mem _ h1⟩
    · simp only [bumpCount, hu, if_false] at h
      rcases List.mem_cons.mp h with h1 | h1
      · exact Or.inr ⟨n, by rw [h1]; exact List.mem_cons_self _ _⟩
      · rcases bumpCount_mem rest s t n h1 with h2 | ⟨m, h2⟩
        · exact Or.inl h2
        · exact Or.inr ⟨m, List.mem_cons_of_mem _ h2⟩

/-- Membership origin of the vote table: every key was a voted tag. -/
theorem countsOf_mem_key : ∀ (ls : List String) (acc : List (String × Nat))
    (t : String) (n : Nat), (t, n) ∈ ls.foldl bumpCount acc →
    (∃ m, (t, m) ∈ acc) ∨ t ∈ ls
  | [], acc, t, n, h => Or.inl ⟨n, h⟩
  | s :: ls, acc, t, n, h => by
    rcases countsOf_mem_key ls (bumpCount acc s) t n h with ⟨m, hm⟩ | hmem
    · rcases bumpCount_mem acc s t m hm with h1 | ⟨m2, h2⟩
      · exact Or.inr (h1 ▸ List.mem_cons_self s ls)
      · exact Or.inl ⟨m2, h2⟩
    · exact Or.inr (List.mem_cons_of_mem _ hmem)

/-- The running maximum stays inside the candidate pool. -/
theorem maxAux_mem : ∀ (l : List (String × Nat)) (b : String × Nat),
    maxAux b l ∈ b :: l
  | [], b => List.mem_singleton.mpr rfl
  | y :: rest, b => by
    unfold maxAux
    by_cases hy : y.2 > b.2
    · simp only [hy, if_true]
      exact List.mem_cons_of_mem b (maxAux_mem rest y)
    · simp only [hy, if_false]
      rcases List.mem_cons.mp (maxAux_mem rest b) with h | h
      · rw [h]
        exact List.mem_cons_self _ _
      · exact List.mem_cons_of_mem _ (List.mem_cons_of_mem _ h)

/-- Python's first-maximum selection returns one of the entries. -/
theorem maxBySecond_mem (l : List (String × Nat)) (x : String × Nat)
    (h : maxBySecond l = some x) : x ∈ l := by
  match l, h with
  | y :: rest, h =>
    simp only [maxBySecond, Option.some.injEq] at h
    exact h ▸ maxAux_mem rest y

/-- The running maximum dominates the start value and every candidate. -/
theorem maxAux_ge : ∀ (l : List (String × Nat)) (b : String × Nat),
    b.2 ≤ (maxAux b l).2 ∧ ∀ y ∈ l, y.2 ≤ (maxAux b l).2
  | [], b => ⟨le_refl _, by simp⟩
  | y :: rest, b => by
    unfold maxAux
    by_cases hy : y.2 > b.2
    · simp only [hy, if_true]
      obtain ⟨h1, h2⟩ := maxAux_ge rest y
      exact ⟨le_of_lt (lt_of_lt_of_le hy h1), by
        intro z hz
        rcases List.mem_cons.mp hz with rfl | hz
        · exact h1
        · exact h2 z hz⟩
    · simp only [hy, if_false]
      obtain ⟨h1, h2⟩ := maxAux_ge rest b
      exact ⟨h1, by
        intro z hz
        rcases List.mem_cons.mp hz with rfl | hz
        · exact le_trans (le_of_not_lt hy) h1
        · exact h2 z hz⟩

/-- Python's first-maximum selection dominates every entry. -/
theorem maxBySecond_ge (l : List (String × Nat)) (x : String × Nat)
    (h : maxBySecond l = some x) : ∀ y ∈ l, y.2 ≤ x.2 := by
  match l, h with
  | y0 :: rest, h =>
    simp only [maxBySecond, Option.some.injEq] at h
    subst h
    intro y hy
    obtain ⟨h1, h2⟩ := maxAux_ge rest y0
    rcases List.mem_cons.mp hy with rfl | hy
    · exact h1
    · exact h2 y hy

/-- Total lowering of a set element (the string case is the only one the
vote can reach without raising). -/
def keyLower : PyKey → String
  | .kstr s => strLower s
  | _ => ""

/-- Successful `mapM` lowering means every element is a string and the
output is the pointwise total lowering. -/
theorem mapM_lower_eq : ∀ (l : List PyKey) (ls : List String),
    l.mapM pyLowerKey = .ok ls → ls = l.map keyLower
  | [], ls, h => by
    have h2 : (Except.ok ([] : List String) : Except PyErr (List String)) = .ok ls := h
    simp only [Except.ok.injEq] at h2
    exact h2.symm
  | v :: l, ls, h => by
    rw [List.mapM_cons] at h
    match v, h with
    | .kstr s, h =>
      simp only [pyLowerKey, ok_bind] at h
      cases hrest : l.mapM pyLowerKey with
      | error e =>
        rw [hrest] at h
        simp [Bind.bind, Except.bind] at h
      | ok ls' =>
        rw [hrest, ok_bind] at h
        simp only [pure, Except.pure, Except.ok.injEq] at h
        subst h
        simp [List.map_cons, keyLower, mapM_lower_eq l ls' hrest]

/-- The metadata vote as claim C1 words it (definition follows the
claim's text, not the source, for comparison only): tag strings that are
not keys of the case-insensitive mapping are excluded from the vote and
from the confidence denominator. -/
def predictFromMetadataClaim (pool : List PyKey) (isRemix : Bool) :
    Except PyErr (Genre × ℚ) := do
  let lowered ← pool.mapM pyLowerKey
  let voting := lowered.filter (fun s => (genreMapping s).isSome)
  if voting.isEmpty then pure (Genre.UNKNOWN, 0)
  else
    match maxBySecond (countsOf voting) with
    | some (name, cnt) =>
      let g := (genreMapping name).getD Genre.UNKNOWN
      let conf : ℚ := (cnt : ℚ) / (voting.length : ℚ)
      pure (g, if isRemix && decide (g ≠ Genre.UNKNOWN) then conf * (4/5) else conf)
    | none => pure (Genre.UNKNOWN, 0)

/-- C1 counterexample: with the pooled tags
`["foo", "Foo", "house"]` (where `"foo"` is not a key of the mapping),
the source's vote lets the unmapped string win (two case-insensitive
votes out of three, so the result falls to `UNKNOWN` with confidence
`2/3`, the denominator counting the unmapped tags), whereas the claim's
exclusion semantics would elect `HOUSE` with confidence `1`. -/
theorem C1_unmapped_tags_counterexample :
    predictFromMetadata [PyKey.kstr "foo", PyKey.kstr "Foo", PyKey.kstr "house"]
      false = .ok (Genre.UNKNOWN, 2/3) ∧
    predictFromMetadataClaim [PyKey.kstr "foo", PyKey.kstr "Foo", PyKey.kstr "house"]
      false = .ok (Genre.HOUSE, 1) ∧
    genreMapping "foo" = none ∧
    (Genre.UNKNOWN ≠ Genre.HOUSE ∧ (2 : ℚ)/3 ≠ 1) := by
  refine ⟨?_, ?_, by decide, by decide, by norm_num⟩
  · unfold predictFromMetadata metadataVote
    rw [if_neg (by decide)]
    have hl : [PyKey.kstr "foo", PyKey.kstr "Foo", PyKey.kstr "house"].mapM pyLowerKey
        = .ok ["foo", "foo", "house"] := by decide
    rw [hl, ok_bind]
    have hm : maxBySecond (countsOf ["foo", "foo", "house"]) = some ("foo", 2) := by
      decide
    rw [hm]
    simp [pure, Except.pure, Bind.bind, Except.bind, genreMapping]
  · unfold predictFromMetadataClaim
    have hl : [PyKey.kstr "foo", PyKey.kstr "Foo", PyKey.kstr "house"].mapM pyLowerKey
        = .ok ["foo", "foo", "house"] := by decide
    rw [hl, ok_bind]
    have hf : (["foo", "foo", "house"].filter (fun s => (genreMapping s).isSome))
        = ["house"] := by decide
    rw [hf]
    rw [if_neg (by decide)]
    have hm : maxBySecond (countsOf ["house"]) = some ("house", 1) := by decide
    rw [hm]
    simp [pure, Except.pure, genreMapping]

/-- C1 (amended): unmapped tag strings do participate in the vote and in
the confidence denominator; what holds instead is that a tag not in the
mapping can never produce a non-`UNKNOWN` prediction — whenever
`_predict_from_metadata` returns a genre other than `UNKNOWN`, some
pooled tag string maps (case-insensitively) to exactly that genre. -/
theorem C1_unmapped_tags_amended (pool : List PyKey) (remix : Bool) (g : Genre) (c : ℚ)
    (h : predictFromMetadata pool remix = .ok (g, c)) (hg : g ≠ Genre.UNKNOWN) :
    ∃ s0, PyKey.kstr s0 ∈ pool ∧ genreMapping (strLower s0) = some g := by
  unfold predictFromMetadata at h
  cases hv : metadataVote pool with
  | error e =>
    rw [hv] at h
    simp [Bind.bind, Except.bind] at h
  | ok gc0 =>
    obtain ⟨g0, c0⟩ := gc0
    rw [hv, ok_bind] at h
    simp only [pure, Except.pure, Except.ok.injEq, Prod.mk.injEq] at h
    obtain ⟨hg0, -⟩ := h
    subst hg0
    unfold metadataVote at hv
    by_cases he : pool.isEmpty
    · rw [if_pos he] at hv
      simp only [pure, Except.pure, Except.ok.injEq, Prod.mk.injEq] at hv
      exact absurd hv.1.symm hg
    · rw [if_neg he] at hv
      cases hl : pool.mapM pyLowerKey with
      | error e =>
        rw [hl] at hv
        simp [Bind.bind, Except.bind] at hv
      | ok lowered =>
        rw [hl, ok_bind] at hv
        cases hm : maxBySecond (countsOf lowered) with
        | none =>
          rw [hm] at hv
          simp only [pure, Except.pure, Except.ok.injEq, Prod.mk.injEq] at hv
          exact absurd hv.1.symm hg
        | some nc =>
          obtain ⟨name, cnt⟩ := nc
          rw [hm] at hv
          simp only [pure, Except.pure, Except.ok.injEq, Prod.mk.injEq] at hv
          obtain ⟨hgm, -⟩ := hv
          have hmap : genreMapping name = some g0 := by
            cases hg2 : genreMapping name with
            | none =>
              rw [hg2] at hgm
              simp only [Option.getD] at hgm
              exact absurd hgm.symm hg
            | some g2 =>
              rw [hg2] at hgm
              simp only [Option.getD] at hgm
              rw [hgm]
          have hmem : (name, cnt) ∈ countsOf lowered := maxBySecond_mem _ _ hm
          have hname : name ∈ lowered := by
            rcases countsOf_mem_key lowered [] name cnt hmem with ⟨m, hm0⟩ | h2
            · simp at hm0
            · exact h2
          have hlow := mapM_lower_eq pool lowered hl
          subst hlow
          obtain ⟨v, hvmem, hveq⟩ := List.mem_map.mp hname
          match v, hveq with
          | .kstr s, hveq =>
            exact ⟨s, hvmem, by
              have : keyLower (PyKey.kstr s) = strLower s := rfl
              rw [this] at hveq
              rw [hveq]
              exact hmap⟩
          | .knone, hveq =>
            rw [← hveq] at hmap
            have hnone : genreMapping (keyLower PyKey.knone) = none := by decide
            rw [hnone] at hmap
            cases hmap
          | .knum q, hveq =>
            rw [← hveq] at hmap
            have hnone : genreMapping (keyLower (PyKey.knum q)) = none := by
              show genreMapping "" = none
              decide
            rw [hnone] at hmap
            cases hmap

/-- Evaluation of the vote on the single mapped tag `"house"` without a
remix adjustment. -/
theorem predictFromMetadata_house :
    predictFromMetadata [PyKey.kstr "house"] false = .ok (Genre.HOUSE, 1) := by
  unfold predictFromMetadata metadataVote
  rw [if_neg (by decide)]
  have hl : [PyKey.kstr "house"].mapM pyLowerKey = .ok ["house"] := by decide
  rw [hl, ok_bind]
  have hm : maxBySecond (countsOf ["house"]) = some ("house", 1) := by decide
  rw [hm]
  simp [pure, Except.pure, Bind.bind, Except.bind, genreMapping]

/-- C1 witness: the amended theorem applied at the pool `["house"]`. -/
theorem C1_unmapped_tags_witness :
    ∃ s0, PyKey.kstr s0 ∈ [PyKey.kstr "house"] ∧
      genreMapping (strLower s0) = some Genre.HOUSE :=
  C1_unmapped_tags_amended [PyKey.kstr "house"] false Genre.HOUSE 1
    predictFromMetadata_house (by decide)

/-- Count held by the vote table for a key (0 when absent). -/
def aCount (acc : List (String × Nat)) (t : String) : Nat :=
  match acc.find? (fun p => p.1 = t) with
  | some p => p.2
  | none => 0

/-- The key list of a vote table. -/
def keyList (acc : List (String × Nat)) : List String := acc.map Prod.fst

/-- Bumping a key increments exactly its own count. -/
theorem bump_aCount_self : ∀ (acc : List (String × Nat)) (s : String),
    aCount (bumpCount acc s) s = aCount acc s + 1
  | [], s => by simp [bumpCount, aCount, List.find?]
  | (u, k) :: rest, s => by
    by_cases hu : u = s
    · subst hu
      simp [bumpCount, aCount, List.find?]
    · simp only [bumpCount, hu, if_false]
      have hd : (decide (u = s)) = false := by simpa using hu
      simp only [aCount, List.find?, hd]
      exact bump_aCount_self rest s

/-- Bumping a key leaves every other count unchanged. -/
theorem bump_aCount_other : ∀ (acc : List (String × Nat)) (s t : String),
    t ≠ s → aCount (bumpCount acc s) t = aCount acc t
  | [], s, t, h => by
    have hd : (decide (s = t)) = false := by simpa using (fun e => h e.symm)
    simp [bumpCount, aCount, List.find?, hd]
  | (u, k) :: rest, s, t, h => by
    by_cases hu : u = s
    · subst hu
      have hd : (decide (u = t)) = false := by simpa using (fun e => h e.symm)
      simp [bumpCount, aCount, List.find?, hd]
    · simp only [bumpCount, hu, if_false]
      by_cases hut : u = t
      · subst hut
        simp [aCount, List.find?]
      · have hd : (decide (u = t)) = false := by simpa using hut
        simp only [aCount, List.find?, hd]
        exact bump_aCount_other rest s t h

/-- Folding the vote over a tag list adds exactly the list's counts. -/
theorem foldl_bump_aCount : ∀ (ls : List String) (acc : List (String × Nat)) (t : String),
    aCount (ls.foldl bumpCount acc) t = aCount acc t + ls.count t
  | [], acc, t => by simp
  | s :: ls, acc, t => by
    rw [List.foldl_cons, foldl_bump_aCount ls (bumpCount acc s) t]
    by_cases hts : t = s
    · subst hts
      rw [bump_aCount_self, List.count_cons_self]
      omega
    · rw [bump_aCount_other acc s t hts, List.count_cons_of_ne]
      simpa using hts

/-- The vote table of a tag list holds exactly the list's counts. -/
theorem aCount_countsOf (ls : List String) (t : String) :
    aCount (countsOf ls) t = ls.count t := by
  have := foldl_bump_aCount ls [] t
  simpa [countsOf, aCount, List.find?] using this

/-- Bumping preserves or appends in the key list. -/
theorem bump_keyList : ∀ (acc : List (String × Nat)) (s : String),
    keyList (bumpCount acc s) =
      if s ∈ keyList acc then keyList acc else keyList acc ++ [s]
  | [], s => by simp [bumpCount, keyList]
  | (u, k) :: rest, s => by
    by_cases hu : u = s
    · subst hu
      simp [bumpCount, keyList]
    · simp only [bumpCount, hu, if_false]
      have h1 : keyList ((u, k) :: bumpCount rest s) = u :: keyList (bumpCount rest s) := rfl
      have h2 : keyList ((u, k) :: rest) = u :: keyList rest := rfl
      rw [h1, h2, bump_keyList rest s]
      by_cases hs : s ∈ keyList rest
      · simp [hs]
      · have hsu : ¬ s = u := fun e => hu e.symm
        have : ¬ s ∈ u :: keyList rest := by simp [hs, hsu]
        simp [hs, this]

/-- Bumping preserves distinctness of the keys. -/
theorem bump_keyList_nodup (acc : List (String × Nat)) (s : String)
    (h : (keyList acc).Nodup) : (keyList (bumpCount acc s)).Nodup := by
  rw [bump_keyList]
  by_cases hs : s ∈ keyList acc
  · simpa [hs] using h
  · simp only [hs, if_false]
    simp [List.nodup_append, h, hs]

/-- The vote table's keys are distinct. -/
theorem countsOf_keyList_nodup : ∀ (ls : List String) (acc : List (String × Nat)),
    (keyList acc).Nodup → (keyList (ls.foldl bumpCount acc)).Nodup
  | [], _, h => h
  | s :: ls, acc, h =>
    countsOf_keyList_nodup ls (bumpCount acc s) (bump_keyList_nodup acc s h)

/-- With distinct keys, membership pins the stored count. -/
theorem mem_aCount : ∀ (acc : List (String × Nat)), (keyList acc).Nodup →
    ∀ (t : String) (n : Nat), (t, n) ∈ acc → aCount acc t = n
  | [], _, t, n, h => by simp at h
  | (u, k) :: rest, hnd, t, n, h => by
    have hnd' : u ∉ keyList rest ∧ (keyList rest).Nodup := by
      simpa [keyList] using hnd
    rcases List.mem_cons.mp h with h1 | h1
    · simp only [Prod.mk.injEq] at h1
      obtain ⟨rfl, rfl⟩ := h1
      simp [aCount, List.find?]
    · by_cases hut : u = t
      · subst hut
        exact absurd (List.mem_map.mpr ⟨(u, n), h1, rfl⟩) hnd'.1
      · have hd : (decide (u = t)) = false := by simpa using hut
        simp only [aCount, List.find?, hd]
        exact mem_aCount rest hnd'.2 t n h1

/-- Every entry of the vote table carries its tag's exact vote count. -/
theorem countsOf_mem_count (ls : List String) (t : String) (n : Nat)
    (h : (t, n) ∈ countsOf ls) : n = ls.count t := by
  have hnd : (keyList (countsOf ls)).Nodup :=
    countsOf_keyList_nodup ls [] (by simp [keyList])
  rw [← mem_aCount (countsOf ls) hnd t n h, aCount_countsOf]

/-- A positive count comes from an actual entry. -/
theorem aCount_pos_mem (acc : List (String × Nat)) (t : String)
    (h : aCount acc t ≠ 0) : (t, aCount acc t) ∈ acc := by
  unfold aCount at h ⊢
  cases hf : acc.find? (fun p => p.1 = t) with
  | none => rw [hf] at h; simp at h
  | some p =>
    have hp := List.find?_some hf
    have hmem := List.mem_of_find?_eq_some hf
    have hpt : p.1 = t := by simpa using hp
    show (t, p.2) ∈ acc
    rw [← hpt, Prod.mk.eta]
    exact hmem

/-- Every voted tag has an entry in the vote table. -/
theorem mem_countsOf_of_mem (ls : List String) (t : String) (h : t ∈ ls) :
    (t, ls.count t) ∈ countsOf ls := by
  have hpos : 0 < ls.count t := List.count_pos_iff.mpr h
  have := aCount_pos_mem (countsOf ls) t
    (by rw [aCount_countsOf]; exact Nat.pos_iff_ne_zero.mp hpos)
  rwa [aCount_countsOf] at this

/-- With no remix adjustment, `_predict_from_metadata` is the raw vote. -/
theorem pfm_false_vote (l : List PyKey) (p : Genre × ℚ)
    (h : predictFromMetadata l false = .ok p) : metadataVote l = .ok p := by
  unfold predictFromMetadata at h
  cases hv : metadataVote l with
  | error e =>
    rw [hv] at h
    simp [Bind.bind, Except.bind] at h
  | ok gc =>
    obtain ⟨g, c⟩ := gc
    rw [hv, ok_bind] at h
    simp only [pure, Except.pure, Except.ok.injEq] at h
    rw [← h]
    simp only [Bool.false_and, Bool.false_eq_true, if_false]

/-- Python's first-maximum of a non-empty list is never `none`. -/
theorem maxBySecond_eq_none (l : List (String × Nat))
    (h : maxBySecond l = none) : l = [] := by
  cases l with
  | nil => rfl
  | cons x rest => simp [maxBySecond] at h

/-- C4 (amended): the pooled tags are deduplicated into an unordered
Python `set`, so which maximal-count tag wins a tie depends on the
implementation-defined set enumeration order, not on the documented
provider pooling order; what is deterministic is the pre-penalty
confidence: for any two enumerations of the same pooled tags the vote
yields the same confidence (the winner always attains the maximal count). -/
theorem C4_tie_break_amended (l1 l2 : List PyKey) (g1 g2 : Genre) (c1 c2 : ℚ)
    (hperm : l1.Perm l2)
    (h1 : predictFromMetadata l1 false = .ok (g1, c1))
    (h2 : predictFromMetadata l2 false = .ok (g2, c2)) :
    c1 = c2 := by
  have hv1 := pfm_false_vote l1 _ h1
  have hv2 := pfm_false_vote l2 _ h2
  unfold metadataVote at hv1 hv2
  by_cases he : l1.isEmpty
  · have hnil : l1 = [] := by simpa using he
    have hnil2 : l2 = [] := by
      have := hperm.length_eq
      rw [hnil] at this
      exact List.length_eq_zero.mp this.symm
    rw [if_pos he] at hv1
    rw [if_pos (by simp [hnil2])] at hv2
    simp only [pure, Except.pure, Except.ok.injEq, Prod.mk.injEq] at hv1 hv2
    rw [← hv1.2, ← hv2.2]
  · have he2 : ¬ l2.isEmpty := by
      have hlen := hperm.length_eq
      intro hcon
      have : l2 = [] := by simpa using hcon
      rw [this] at hlen
      simp [List.isEmpty_iff, List.length_eq_zero.mp hlen] at he
    rw [if_neg he] at hv1
    rw [if_neg he2] at hv2
    cases hl1 : l1.mapM pyLowerKey with
    | error e =>
      rw [hl1] at hv1
      simp [Bind.bind, Except.bind] at hv1
    | ok lowered1 =>
      cases hl2 : l2.mapM pyLowerKey with
      | error e =>
        rw [hl2] at hv2
        simp [Bind.bind, Except.bind] at hv2
      | ok lowered2 =>
        rw [hl1, ok_bind] at hv1
        rw [hl2, ok_bind] at hv2
        have hle1 := mapM_lower_eq l1 lowered1 hl1
        have hle2 := mapM_lower_eq l2 lowered2 hl2
        have hpl : lowered1.Perm lowered2 := by
          rw [hle1, hle2]
          exact hperm.map keyLower
        cases hm1 : maxBySecond (countsOf lowered1) with
        | none =>
          exfalso
          have hl1nil : countsOf lowered1 = [] := maxBySecond_eq_none _ hm1
          have hlow1 : lowered1 ≠ [] := by
            rw [hle1]
            simp only [ne_eq, List.map_eq_nil_iff]
            simpa using he
          obtain ⟨t, ht⟩ := List.exists_mem_of_ne_nil lowered1 hlow1
          have := mem_countsOf_of_mem lowered1 t ht
          rw [hl1nil] at this
          simp at this
        | some nc1 =>
          obtain ⟨n1, k1⟩ := nc1
          cases hm2 : maxBySecond (countsOf lowered2) with
          | none =>
            exfalso
            have hl2nil : countsOf lowered2 = [] := maxBySecond_eq_none _ hm2
            have hlow2 : lowered2 ≠ [] := by
              rw [hle2]
              simp only [ne_eq, List.map_eq_nil_iff]
              simpa using he2
            obtain ⟨t, ht⟩ := List.exists_mem_of_ne_nil lowered2 hlow2
            have := mem_countsOf_of_mem lowered2 t ht
            rw [hl2nil] at this
            simp at this
          | some nc2 =>
            obtain ⟨n2, k2⟩ := nc2
            rw [hm1] at hv1
            rw [hm2] at hv2
            simp only [pure, Except.pure, Except.ok.injEq, Prod.mk.injEq] at hv1 hv2
            have hk1 : k1 = lowered1.count n1 :=
              countsOf_mem_count _ _ _ (maxBySecond_mem _ _ hm1)
            have hk2 : k2 = lowered2.count n2 :=
              countsOf_mem_count _ _ _ (maxBySecond_mem _ _ hm2)
            have hn1 : n1 ∈ lowered1 := by
              rcases countsOf_mem_key lowered1 [] n1 k1
                  (maxBySecond_mem _ _ hm1) with ⟨m, hm0⟩ | hmem
              · simp at hm0
              · exact hmem
            have hn2 : n2 ∈ lowered2 := by
              rcases countsOf_mem_key lowered2 [] n2 k2
                  (maxBySecond_mem _ _ hm2) with ⟨m, hm0⟩ | hmem
              · simp at hm0
              · exact hmem
            have hb1 : lowered2.count n1 ≤ k2 :=
              maxBySecond_ge _ _ hm2 (n1, lowered2.count n1)
                (mem_countsOf_of_mem lowered2 n1 (hpl.mem_iff.mp hn1))
            have hb2 : lowered1.count n2 ≤ k1 :=
              maxBySecond_ge _ _ hm1 (n2, lowered1.count n2)
                (mem_countsOf_of_mem lowered1 n2 (hpl.mem_iff.mpr hn2))
            have hcnt1 : lowered1.count n1 = lowered2.count n1 := hpl.count_eq n1
            have hcnt2 : lowered1.count n2 = lowered2.count n2 := hpl.count_eq n2
            have hkk : k1 = k2 := by omega
            have hlen : l1.length = l2.length := hperm.length_eq
            rw [← hv1.2, ← hv2.2, hkk, hlen]

/-- A provider payload whose track top-tags are `"house"` then
`"techno"` (one vote each: a tie). -/
def tiePayload : PyVal :=
  .dict [("name", .str "Song"),
         ("toptags", .dict [("tag", .list [.dict [("name", .str "house")],
                                           .dict [("name", .str "techno")]])])]

/-- Evaluation of the vote on the enumeration `["house", "techno"]`. -/
theorem predictFromMetadata_house_techno :
    predictFromMetadata [PyKey.kstr "house", PyKey.kstr "techno"] false =
      .ok (Genre.HOUSE, 1/2) := by
  unfold predictFromMetadata metadataVote
  rw [if_neg (by decide)]
  have hl : [PyKey.kstr "house", PyKey.kstr "techno"].mapM pyLowerKey
      = .ok ["house", "techno"] := by decide
  rw [hl, ok_bind]
  have hm : maxBySecond (countsOf ["house", "techno"]) = some ("house", 1) := by decide
  rw [hm]
  simp [pure, Except.pure, Bind.bind, Except.bind, genreMapping]

/-- Evaluation of the vote on the reversed enumeration. -/
theorem predictFromMetadata_techno_house :
    predictFromMetadata [PyKey.kstr "techno", PyKey.kstr "house"] false =
      .ok (Genre.TECHNO, 1/2) := by
  unfold predictFromMetadata metadataVote
  rw [if_neg (by decide)]
  have hl : [PyKey.kstr "techno", PyKey.kstr "house"].mapM pyLowerKey
      = .ok ["techno", "house"] := by decide
  rw [hl, ok_bind]
  have hm : maxBySecond (countsOf ["techno", "house"]) = some ("techno", 1) := by decide
  rw [hm]
  simp [pure, Except.pure, Bind.bind, Except.bind, genreMapping]

/-- C4 counterexample: for one fixed provider payload (`tiePayload`) the
pooled tag set is `{"house", "techno"}`, both valid enumerations of that
set are reachable from `research_track` (the identity enumeration and the
reversed one, each a permutation of the pooled distinct tags), and the
fused genre differs between them — so the fused result is not a function
of the payloads alone, and the tie is not broken by the documented
provider pooling order. -/
theorem C4_tie_break_counterexample :
    (researchTrack "t" "Song" "Band" (some tiePayload) none id).map
      (fun r => r.combinedGenres) = .ok [PyKey.kstr "house", PyKey.kstr "techno"] ∧
    (researchTrack "t" "Song" "Band" (some tiePayload) none List.reverse).map
      (fun r => r.combinedGenres) = .ok [PyKey.kstr "techno", PyKey.kstr "house"] ∧
    ([PyKey.kstr "techno", PyKey.kstr "house"] : List PyKey).Perm
      [PyKey.kstr "house", PyKey.kstr "techno"] ∧
    predictFromMetadata [PyKey.kstr "house", PyKey.kstr "techno"] false =
      .ok (Genre.HOUSE, 1/2) ∧
    predictFromMetadata [PyKey.kstr "techno", PyKey.kstr "house"] false =
      .ok (Genre.TECHNO, 1/2) ∧
    Genre.HOUSE ≠ Genre.TECHNO :=
  ⟨by decide, by decide, by decide,
   predictFromMetadata_house_techno, predictFromMetadata_techno_house, by decide⟩

/-- C4 witness: the enumeration-invariance theorem applied to the two
concrete enumerations of the tied pool. -/
theorem C4_tie_break_witness : (1 : ℚ)/2 = 1/2 :=
  C4_tie_break_amended [PyKey.kstr "house", PyKey.kstr "techno"]
    [PyKey.kstr "techno", PyKey.kstr "house"] Genre.HOUSE Genre.TECHNO (1/2) (1/2)
    (by decide) predictFromMetadata_house_techno predictFromMetadata_techno_house

/-- The Last.fm payload of the end-to-end Strobe scenario: both providers
tag the track `"progressive house"`. -/
def strobeLastfm : PyVal :=
  .dict [("name", .str "Strobe (Extended Mix)"),
         ("artist", .dict [("name", .str "Deadmau5")]),
         ("toptags", .dict [("tag", .list [.dict [("name", .str "progressive house")]])])]

/-- The MusicBrainz payload of the Strobe scenario. -/
def strobeMB : PyVal :=
  .dict [("title", .str "Strobe (Extended Mix)"),
         ("artist-credit-phrase", .str "Deadmau5"),
         ("tag-list", .list [.dict [("name", .str "progressive house")]])]

/-- The evidence bundle `research_track` produces for the Strobe
scenario: remix detected (the title holds `"mix"`/`"extended"`), one
distinct pooled tag, source confidence `0.9`. -/
def strobeRR : MusicResearchResult :=
  { trackId := "t1", lastfmData := some strobeLastfm,
    musicbrainzData := some strobeMB,
    combinedGenres := [.kstr "progressive house"], isRemix := true,
    confidence := 9/10 }

/-- The analysis the metadata path produces for the Strobe scenario. -/
def strobeAnalysis : GenreAnalysis :=
  { trackId := "t1", predictedGenre := .PROGRESSIVE, confidence := 4/5,
    isRemix := true, analysisMethod := "metadata_analysis",
    playlistSuggestions := generatePlaylistSuggestions .PROGRESSIVE }

/-- The playlist snapshot of the Strobe scenario: one playlist named
`"Progressive House"`, one genre-tagged `Progressive`, and one
remix-named playlist tagged `Progressive`. -/
def strobePlaylists : List PlaylistInfo :=
  [⟨"p1", "Progressive House", ""⟩,
   ⟨"p2", "Peak Time", "Progressive"⟩,
   ⟨"p3", "Progressive Remixes", "Progressive"⟩]

/-- Source-confidence evaluation for the Strobe scenario: both providers
answered and tags were found, no richness bonuses. -/
theorem strobe_confidence :
    calculateConfidence (storeIfTruthy (some strobeLastfm))
      (storeIfTruthy (some strobeMB)) [PyKey.kstr "progressive house"] =
      .ok (9/10) := by
  have h := (calculateConfidence_eval (storeIfTruthy (some strobeLastfm))
    (storeIfTruthy (some strobeMB)) [PyKey.kstr "progressive house"] (by decide)).1
  rw [h]
  have hval : confidenceLadder (storeIfTruthy (some strobeLastfm))
      (storeIfTruthy (some strobeMB)) [PyKey.kstr "progressive house"] = 9/10 := by
    unfold confidenceLadder
    rw [if_pos (by decide), if_neg (by decide), if_neg (by decide),
      if_neg (by decide), if_neg (by decide)]
    norm_num
  rw [hval, min_eq_left (by norm_num)]

/-- Research evaluation for the Strobe scenario. -/
theorem strobe_research_eval :
    researchTrack "t1" "Strobe (Extended Mix)" "Deadmau5"
      (some strobeLastfm) (some strobeMB) id = .ok strobeRR := by
  unfold researchTrack
  have hd : detectRemix "Strobe (Extended Mix)" "Deadmau5"
      (some strobeLastfm) (some strobeMB) = .ok true := by decide
  rw [hd, ok_bind]
  have hc : combineGenres (some strobeLastfm) (some strobeMB) =
      .ok [PyKey.kstr "progressive house"] := by decide
  rw [hc, ok_bind]
  simp only [id_eq]
  rw [strobe_confidence, ok_bind]
  rfl

/-- Metadata-vote evaluation for the Strobe scenario: one distinct tag,
so the vote confidence is `1.0`, reduced to `0.8` by the remix penalty. -/
theorem predictFromMetadata_progressive_remix :
    predictFromMetadata [PyKey.kstr "progressive house"] true =
      .ok (Genre.PROGRESSIVE, 4/5) := by
  unfold predictFromMetadata metadataVote
  rw [if_neg (by decide)]
  have hl : [PyKey.kstr "progressive house"].mapM pyLowerKey
      = .ok ["progressive house"] := by decide
  rw [hl, ok_bind]
  have hm : maxBySecond (countsOf ["progressive house"]) =
      some ("progressive house", 1) := by decide
  rw [hm]
  simp [pure, Except.pure, Bind.bind, Except.bind, genreMapping]

/-- Analysis evaluation for the Strobe scenario (no audio file, so the
metadata fallback runs). -/
theorem strobe_analysis_eval :
    analyzeTrack "t1" none strobeRR = .ok strobeAnalysis := by
  simp only [analyzeTrack, strobeRR, true_or, if_true]
  rw [predictFromMetadata_progressive_remix, ok_bind]
  rfl

/-- The research-then-analyse composition for the Strobe scenario, as
`_process_single_track` chains the two services. -/
theorem strobe_pipeline :
    (researchTrack "t1" "Strobe (Extended Mix)" "Deadmau5"
        (some strobeLastfm) (some strobeMB) id >>=
      fun r => analyzeTrack "t1" none r) = .ok strobeAnalysis := by
  rw [strobe_research_eval, ok_bind, strobe_analysis_eval]

/-- C5 counterexample: the Strobe pipeline yields confidence `0.8`, not
the claimed `0.8 * 0.8 = 0.64` — the metadata vote runs over the
deduplicated pooled set, so the single distinct tag wins `1/1` with vote
confidence `1.0`, and only the remix penalty scales it (to `0.8`). -/
theorem C5_strobe_counterexample :
    (researchTrack "t1" "Strobe (Extended Mix)" "Deadmau5"
        (some strobeLastfm) (some strobeMB) id >>=
      fun r => analyzeTrack "t1" none r) = .ok strobeAnalysis ∧
    strobeAnalysis.confidence = 4/5 ∧
    (4 : ℚ)/5 ≠ (8/10) * (8/10) :=
  ⟨strobe_pipeline, rfl, by norm_num⟩

/-- C5 (amended): the Strobe scenario yields `is_remix = true`,
`predicted_genre = PROGRESSIVE` and confidence `1.0 * 0.8 = 0.8` (not
`0.64`), and the track is matched into the playlist named
`"Progressive House"`, the playlist genre-tagged `Progressive`, and the
remix-named playlist tagged `Progressive`. -/
theorem C5_strobe_amended :
    (researchTrack "t1" "Strobe (Extended Mix)" "Deadmau5"
        (some strobeLastfm) (some strobeMB) id >>=
      fun r => analyzeTrack "t1" none r) = .ok strobeAnalysis ∧
    strobeAnalysis.isRemix = true ∧
    strobeAnalysis.predictedGenre = Genre.PROGRESSIVE ∧
    strobeAnalysis.confidence = 4/5 ∧
    "p1" ∈ matchTrackToPlaylists strobeAnalysis strobePlaylists ∧
    "p2" ∈ matchTrackToPlaylists strobeAnalysis strobePlaylists ∧
    "p3" ∈ matchTrackToPlaylists strobeAnalysis strobePlaylists :=
  ⟨strobe_pipeline, rfl, rfl, rfl, by decide, by decide, by decide⟩

/-- C8 (confirmed): `_process_single_track` evaluates the
high-confidence skip check before any work: a track with a truthy
current genre and a recorded confidence above `0.8` returns a
skipped/successful result with an empty collaborator-call log — zero
provider research calls, zero genre writes, zero playlist reads or
adds — regardless of every collaborator behaviour. -/
theorem C8_skip_before_work (track : TrackInfo) (playlists : List PlaylistInfo)
    (dryRun : Bool) (lastfmResp mbResp : Option PyVal)
    (enum : List PyKey → List PyKey) (audioResult : Option (Genre × ℚ))
    (confidenceThreshold : ℚ) (updateOk : Bool)
    (playlistTracks : String → List String) (addOk : String → Bool)
    (g : String) (c : ℚ)
    (hg : track.currentGenre = some g) (hgne : g ≠ "")
    (hc : track.confidenceScore = some c) (hchigh : c > 8/10) :
    processSingleTrack track playlists dryRun lastfmResp mbResp enum audioResult
      confidenceThreshold updateOk playlistTracks addOk =
      ({ trackId := track.id, success := true, updated := false,
         playlistAdditions := 0, skipped := true, errorMsg := none,
         matchedPlaylists := [] }, []) := by
  have hc0 : c ≠ 0 := ne_of_gt (lt_trans (by norm_num) hchigh)
  simp [processSingleTrack, hg, hc, hgne, hc0, hchigh]

/-- A concrete track that already carries a high-confidence genre. -/
def confidentTrack : TrackInfo :=
  { id := "x", title := "T", artist := "A",
    currentGenre := some "House", confidenceScore := some 1 }

/-- C8 witness: the skip theorem applied to a concrete track and
concrete collaborator behaviours. -/
theorem C8_skip_before_work_witness :
    processSingleTrack confidentTrack [] false none none id none (7/10) true
      (fun _ => []) (fun _ => true) =
      ({ trackId := confidentTrack.id, success := true, updated := false,
         playlistAdditions := 0, skipped := true, errorMsg := none,
         matchedPlaylists := [] }, []) :=
  C8_skip_before_work confidentTrack [] false none none id none (7/10) true
    (fun _ => []) (fun _ => true) "House" 1 rfl (by decide) rfl (by norm_num)
